import Mathlib

/-!
Verification of the `read_httpd_log` DuckDB extension core: a shallow
embedding of the Apache `LogFormat` compiler (`HttpdLogFormatParser`), the
regex-based line extractor, the typed-value conversion layer and the format
detector, together with theorems checking the natural-language specification
against this embedding.

Conventions of the embedding:
* format strings, log lines and regex patterns are `List Char`;
* machine integers are `Int` with explicit range checks where the C++
  conversion functions (`std::stoi` / `std::stoll`) would throw;
* C++ functions that return a success flag and write through references are
  embedded as `Option`-returning functions (`none` = failure; where the C++
  could also throw an uncaught exception on malformed input, `none` covers
  that case as well, which is noted at the definition);
* regex matching is performed by RE2's `FullMatchN` in the source; RE2 is an
  external library, so its behaviour on the pattern subset that the format
  compiler emits is modelled here by `rdParsePattern` / `matchItems`
  (greedy backtracking, full-string anchoring, as `FullMatchN` does).
-/

namespace HttpdLog

/-- Subset of duckdb's `LogicalTypeId` used by the extension. -/
inductive LogicalTypeId where
  | varchar
  | integer
  | bigint
  | timestampTy
  | intervalTy
  | booleanTy
  | invalid
  deriving DecidableEq, Repr

/-- One row of the static directive catalog
(`HttpdLogFormatParser::directive_definitions`). -/
structure DirectiveDefinition where
  directive : String
  column_name : String
  ty : LogicalTypeId
  collision_suffix : String := ""
  collision_priority : Int := 0
  deriving DecidableEq, Repr

open LogicalTypeId in
/-- The static directive catalog, entry for entry in source order. -/
def directive_definitions : List DirectiveDefinition := [
  ⟨"%h", "client_ip", varchar, "", 0⟩,
  ⟨"%a", "remote_ip", varchar, "", 0⟩,
  ⟨"%A", "local_ip", varchar, "", 0⟩,
  ⟨"%l", "ident", varchar, "", 0⟩,
  ⟨"%u", "auth_user", varchar, "", 0⟩,
  ⟨"%t", "timestamp", timestampTy, "", 0⟩,
  ⟨"%>r", "request", varchar, "", 0⟩,
  ⟨"%r", "request", varchar, "_original", 1⟩,
  ⟨"%<r", "request", varchar, "_original", 1⟩,
  ⟨"%m", "method", varchar, "", 0⟩,
  ⟨"%>U", "path", varchar, "", 0⟩,
  ⟨"%U", "path", varchar, "_original", 1⟩,
  ⟨"%<U", "path", varchar, "_original", 1⟩,
  ⟨"%q", "query_string", varchar, "", 0⟩,
  ⟨"%H", "protocol", varchar, "", 0⟩,
  ⟨"%p", "server_port", integer, "", 0⟩,
  ⟨"%k", "keepalive_count", integer, "", 0⟩,
  ⟨"%X", "connection_status", varchar, "", 0⟩,
  ⟨"%P", "process_id", integer, "", 0⟩,
  ⟨"%>D", "duration", intervalTy, "", 0⟩,
  ⟨"%D", "duration", intervalTy, "_original", 1⟩,
  ⟨"%<D", "duration", intervalTy, "_original", 1⟩,
  ⟨"%>T", "duration", intervalTy, "", 0⟩,
  ⟨"%T", "duration", intervalTy, "_original", 1⟩,
  ⟨"%<T", "duration", intervalTy, "_original", 1⟩,
  ⟨"%>s", "status", integer, "", 0⟩,
  ⟨"%s", "status", integer, "_original", 1⟩,
  ⟨"%<s", "status", integer, "_original", 1⟩,
  ⟨"%v", "server_name", varchar, "", 0⟩,
  ⟨"%V", "server_name", varchar, "_used", 1⟩,
  ⟨"%B", "bytes", bigint, "", 0⟩,
  ⟨"%b", "bytes", bigint, "", 0⟩,
  ⟨"%I", "bytes_received", bigint, "", 0⟩,
  ⟨"%O", "bytes_sent", bigint, "", 0⟩,
  ⟨"%S", "bytes_transferred", bigint, "", 0⟩,
  ⟨"%f", "filename", varchar, "", 0⟩,
  ⟨"%L", "request_log_id", varchar, "", 0⟩,
  ⟨"%R", "handler", varchar, "", 0⟩,
  ⟨"%i", "", varchar, "_in", 2⟩,
  ⟨"%o", "", varchar, "_out", 3⟩,
  ⟨"%C", "", varchar, "_cookie", 4⟩,
  ⟨"%e", "", varchar, "_env", 5⟩,
  ⟨"%n", "", varchar, "_note", 6⟩,
  ⟨"%^ti", "", varchar, "_trail_in", 7⟩,
  ⟨"%^to", "", varchar, "_trail_out", 8⟩]

/-- One row of the typed-header catalog (`typed_header_rules`). -/
structure TypedHeaderRule where
  header_name : String
  ty : LogicalTypeId
  applies_to_request : Bool
  applies_to_response : Bool
  deriving DecidableEq, Repr

def typed_header_rules : List TypedHeaderRule := [
  ⟨"content-length", LogicalTypeId.bigint, true, true⟩,
  ⟨"age", LogicalTypeId.integer, false, true⟩,
  ⟨"max-forwards", LogicalTypeId.integer, true, false⟩]

/-- `TypedHeaderRule::AppliesTo`. -/
def TypedHeaderRule.AppliesTo (r : TypedHeaderRule) (directive : String) : Bool :=
  if directive = "%i" then r.applies_to_request
  else if directive = "%o" then r.applies_to_response
  else false

/-- `GetDirectiveDefinition`: the lazily built `directive_cache` is a map
from the (pairwise distinct) directive keys, so lookup is a first-match
search of the catalog. -/
def GetDirectiveDefinition (directive : String) : Option DirectiveDefinition :=
  directive_definitions.find? (fun d => d.directive = directive)

/-- ASCII lowercasing as done by `std::tolower` over a `string`. -/
def toLowerStr (s : String) : String :=
  String.mk (s.data.map Char.toLower)

/-- `GetTypedHeaderType`. -/
def GetTypedHeaderType (header_name directive : String) : LogicalTypeId :=
  let header_lower := toLowerStr header_name
  match typed_header_rules.find? (fun r => r.header_name = header_lower) with
  | some r => if r.AppliesTo directive then r.ty else LogicalTypeId.invalid
  | none => LogicalTypeId.invalid

/-- Drop a leading percent sign, as `GetColumnName`'s fallback does. -/
def dropPercent (s : String) : String :=
  match s.data with
  | '%' :: rest => String.mk rest
  | _ => s

/-- `HttpdLogFormatParser::GetColumnName`. -/
def GetColumnName (directive modifier : String) : String :=
  if (directive = "%i" ∨ directive = "%o" ∨ directive = "%C" ∨ directive = "%e" ∨
      directive = "%n" ∨ directive = "%^ti" ∨ directive = "%^to") ∧ modifier ≠ "" then
    String.mk ((toLowerStr modifier).data.map (fun c => if c = '-' then '_' else c))
  else if directive = "%a" ∧ modifier = "c" then "peer_ip"
  else if directive = "%h" ∧ modifier = "c" then "peer_host"
  else if (directive = "%T" ∨ directive = "%>T" ∨ directive = "%<T") ∧
          (modifier = "ms" ∨ modifier = "us" ∨ modifier = "s") then
    match GetDirectiveDefinition directive with
    | some def0 => def0.column_name
    | none => "duration"
  else if directive = "%P" ∧ (modifier = "pid" ∨ modifier = "") then "process_id"
  else if directive = "%P" ∧ modifier = "tid" then "thread_id"
  else if directive = "%P" ∧ modifier = "hextid" then "thread_id_hex"
  else if directive = "%p" ∧ (modifier = "canonical" ∨ modifier = "") then "server_port"
  else if directive = "%p" ∧ modifier = "local" then "local_port"
  else if directive = "%p" ∧ modifier = "remote" then "remote_port"
  else
    match GetDirectiveDefinition directive with
    | some def0 =>
      if def0.column_name ≠ "" then def0.column_name
      else "field_" ++ dropPercent directive
    | none => "field_" ++ dropPercent directive

/-- `HttpdLogFormatParser::GetDataType`. -/
def GetDataType (directive modifier : String) : LogicalTypeId :=
  if directive = "%i" ∨ directive = "%o" then
    if modifier ≠ "" then
      let t := GetTypedHeaderType modifier directive
      if t ≠ LogicalTypeId.invalid then t else LogicalTypeId.varchar
    else LogicalTypeId.varchar
  else if directive = "%C" ∨ directive = "%e" ∨ directive = "%n" ∨
          directive = "%^ti" ∨ directive = "%^to" then LogicalTypeId.varchar
  else if (directive = "%T" ∨ directive = "%>T" ∨ directive = "%<T") ∧
          (modifier = "ms" ∨ modifier = "us" ∨ modifier = "s") then
    LogicalTypeId.intervalTy
  else if directive = "%P" ∧ (modifier = "pid" ∨ modifier = "") then LogicalTypeId.integer
  else if directive = "%P" ∧ modifier = "tid" then LogicalTypeId.bigint
  else if directive = "%P" ∧ modifier = "hextid" then LogicalTypeId.varchar
  else if directive = "%p" ∧ (modifier = "canonical" ∨ modifier = "local" ∨
          modifier = "remote") then LogicalTypeId.integer
  else
    match GetDirectiveDefinition directive with
    | some def0 => def0.ty
    | none => LogicalTypeId.varchar

/-- `TimestampFormatType`. -/
inductive TimestampFormatType where
  | APACHE_DEFAULT
  | EPOCH_SEC
  | EPOCH_MSEC
  | EPOCH_USEC
  | FRAC_MSEC
  | FRAC_USEC
  | STRFTIME
  deriving DecidableEq, Repr

/-- `FormatField`; default attribute values follow the C++ constructor. -/
structure FormatField where
  directive : String
  column_name : String
  ty : LogicalTypeId
  is_quoted : Bool := false
  modifier : String := ""
  should_skip : Bool := false
  skip_method : Bool := false
  skip_path : Bool := false
  skip_query_string : Bool := false
  skip_protocol : Bool := false
  timestamp_group_id : Int := -1
  timestamp_type : TimestampFormatType := TimestampFormatType.APACHE_DEFAULT
  strftime_format : String := ""
  is_end_timestamp : Bool := false
  deriving DecidableEq, Repr

/-- `TimestampGroup`. -/
structure TimestampGroup where
  field_indices : List Nat := []
  has_epoch_component : Bool := false
  has_strftime_component : Bool := false
  has_plain_t : Bool := false
  has_frac_component : Bool := false
  deriving DecidableEq, Repr

/-- `ParsedFormat`. `has_regex` models whether `compiled_regex` is non-null:
it is set only by `ParseFormatString`; a default-constructed
`ParsedFormat` (the "unknown format" case) has a null regex. -/
structure ParsedFormat where
  original_format_str : List Char
  fields : List FormatField := []
  timestamp_groups : List TimestampGroup := []
  regex_pattern : List Char := []
  has_regex : Bool := false
  deriving DecidableEq, Repr

end HttpdLog

namespace HttpdLog

/-! ### Format-string tokenization (`ParseFormatString`, tokenization loop) -/

/-- Fuelled scan for the first occurrence of `ch` at or after position `i`. -/
def findCharFromAux (s : List Char) (ch : Char) : Nat → Nat → Option Nat
  | 0, _ => none
  | fuel + 1, i =>
    match s.get? i with
    | some c => if c = ch then some i else findCharFromAux s ch fuel (i + 1)
    | none => none

/-- Position of the first occurrence of `ch` in `s` at or after `start`
(`string::find(ch, start)`); `s.length` fuel always suffices. -/
def findCharFrom (s : List Char) (ch : Char) (start : Nat) : Option Nat :=
  findCharFromAux s ch s.length start

theorem findCharFromAux_found {s : List Char} {ch : Char} :
    ∀ {fuel i c : Nat}, findCharFromAux s ch fuel i = some c →
      i ≤ c ∧ c < s.length ∧ s.get? c = some ch := by
  intro fuel
  induction fuel with
  | zero => intro i c h; simp [findCharFromAux] at h
  | succ fuel ih =>
    intro i c h
    unfold findCharFromAux at h
    cases hg : s.get? i with
    | none => rw [hg] at h; exact absurd h (by simp)
    | some x =>
      rw [hg] at h
      by_cases hx : x = ch
      · simp [hx] at h
        subst h
        exact ⟨Nat.le_refl _, List.get?_eq_some.mp hg |>.1, by rw [hg, hx]⟩
      · simp [hx] at h
        obtain ⟨h1, h2, h3⟩ := ih h
        exact ⟨by omega, h2, h3⟩

theorem findCharFromAux_exists_le {s : List Char} {ch : Char} :
    ∀ {fuel i j : Nat}, i ≤ j → s.get? j = some ch → j - i < fuel →
      ∃ c, findCharFromAux s ch fuel i = some c ∧ c ≤ j := by
  intro fuel
  induction fuel with
  | zero => intro i j _ _ hf; omega
  | succ fuel ih =>
    intro i j hij hj hf
    have hjlen : j < s.length := List.get?_eq_some.mp hj |>.1
    unfold findCharFromAux
    cases hg : s.get? i with
    | none =>
      have : s.length ≤ i := List.get?_eq_none.mp hg
      omega
    | some x =>
      by_cases hx : x = ch
      · exact ⟨i, by simp [hx], hij⟩
      · have hne : i ≠ j := by
          intro he; subst he; rw [hg] at hj
          exact hx (Option.some.inj hj)
        have hij2 : i + 1 ≤ j := by omega
        obtain ⟨c, hc, hcle⟩ := ih hij2 hj (by omega)
        exact ⟨c, by simp [hx, hc], hcle⟩

theorem findCharFrom_found {s : List Char} {ch : Char} {start c : Nat}
    (h : findCharFrom s ch start = some c) :
    start ≤ c ∧ c < s.length ∧ s.get? c = some ch :=
  findCharFromAux_found h

theorem findCharFrom_ge {s : List Char} {c : Char} {start i : Nat}
    (h : findCharFrom s c start = some i) : start ≤ i :=
  (findCharFrom_found h).1

theorem findCharFrom_exists_le {s : List Char} {ch : Char} {start j : Nat}
    (hij : start ≤ j) (hj : s.get? j = some ch) :
    ∃ c, findCharFrom s ch start = some c ∧ c ≤ j := by
  have hjlen : j < s.length := List.get?_eq_some.mp hj |>.1
  exact findCharFromAux_exists_le hij hj (by omega)


/-- `substr(pos, len)` on a character list (clamping, as `std::string` does
when fewer than `len` characters remain). -/
def subStr (s : List Char) (pos len : Nat) : List Char :=
  (s.drop pos).take len

/-- Skip a run of digits and commas (the status-code condition scan).
Structural recursion on a fuel argument; the callers pass enough fuel
(`fmt.length` suffices, since the scan stops at the end of the string). -/
def skipDigitsCommas (fmt : List Char) : Nat → Nat → Nat
  | 0, i => i
  | fuel + 1, i =>
    match fmt.get? i with
    | some c => if c.isDigit ∨ c = ',' then skipDigitsCommas fmt fuel (i + 1) else i
    | none => i

theorem skipDigitsCommas_ge (fmt : List Char) (fuel i : Nat) :
    i ≤ skipDigitsCommas fmt fuel i := by
  induction fuel generalizing i with
  | zero => simp [skipDigitsCommas]
  | succ fuel ih =>
    unfold skipDigitsCommas
    split
    · split
      · have := ih (i + 1)
        omega
      · exact Nat.le_refl i
    · exact Nat.le_refl i

/-- Classify a `%t` field's `timestamp_type` from its modifier
(tail of the tokenization loop body). -/
def classifyTimestamp (f : FormatField) : FormatField :=
  if f.directive = "%t" then
    if f.modifier = "" then { f with timestamp_type := TimestampFormatType.APACHE_DEFAULT }
    else if f.modifier = "sec" then { f with timestamp_type := TimestampFormatType.EPOCH_SEC }
    else if f.modifier = "msec" then { f with timestamp_type := TimestampFormatType.EPOCH_MSEC }
    else if f.modifier = "usec" then { f with timestamp_type := TimestampFormatType.EPOCH_USEC }
    else if f.modifier = "msec_frac" then { f with timestamp_type := TimestampFormatType.FRAC_MSEC }
    else if f.modifier = "usec_frac" then { f with timestamp_type := TimestampFormatType.FRAC_USEC }
    else if f.modifier.data.take 6 = "begin:".data then
      { f with timestamp_type := TimestampFormatType.STRFTIME,
               strftime_format := String.mk (f.modifier.data.drop 6),
               is_end_timestamp := false }
    else if f.modifier.data.take 4 = "end:".data then
      { f with timestamp_type := TimestampFormatType.STRFTIME,
               strftime_format := String.mk (f.modifier.data.drop 4),
               is_end_timestamp := true }
    else
      { f with timestamp_type := TimestampFormatType.STRFTIME, strftime_format := f.modifier }
  else f

/-- Build one `FormatField` for a tokenized directive occurrence. -/
def mkField (directive modifier : List Char) (in_quotes : Bool) : FormatField :=
  let d := String.mk directive
  let m := String.mk modifier
  classifyTimestamp
    { directive := d, column_name := GetColumnName d m, ty := GetDataType d m,
      is_quoted := in_quotes, modifier := m }

/-- Start of the directive letter after the optional status-code condition
(`!`, digits, commas) has been skipped. -/
def directiveStart (fmt : List Char) (pos : Nat) : Nat :=
  skipDigitsCommas fmt fmt.length
    (if fmt.getD (pos + 1) ' ' = '!' then pos + 2 else pos + 1)

theorem directiveStart_ge (fmt : List Char) (pos : Nat) : pos + 1 ≤ directiveStart fmt pos := by
  unfold directiveStart
  split
  · have := skipDigitsCommas_ge fmt fmt.length (pos + 2); omega
  · exact skipDigitsCommas_ge fmt fmt.length (pos + 1)

/-- The tokenization loop of `ParseFormatString`: walk the format string and
emit one `FormatField` per recognized directive.  Structural recursion on
fuel; each iteration advances `pos`, so `fmt.length + 1` fuel is always
enough (`tokenize` below). -/
def tokenizeAux (fmt : List Char) : Nat → Nat → Bool → List FormatField
  | 0, _, _ => []
  | fuel + 1, pos, in_quotes =>
    if pos < fmt.length then
      let c := fmt.getD pos ' '
      if c = '"' then tokenizeAux fmt fuel (pos + 1) (!in_quotes)
      else if c = '%' ∧ pos + 1 < fmt.length then
        let directive_start := directiveStart fmt pos
        if directive_start < fmt.length ∧ fmt.getD directive_start ' ' = '{' then
          match findCharFrom fmt '}' (directive_start + 1) with
          | some close_pos =>
            if close_pos + 1 < fmt.length then
              let modifier := subStr fmt (directive_start + 1) (close_pos - directive_start - 1)
              if fmt.getD (close_pos + 1) ' ' = '^' ∧ close_pos + 3 < fmt.length then
                mkField ('%' :: subStr fmt (close_pos + 1) 3) modifier in_quotes ::
                  tokenizeAux fmt fuel (close_pos + 4) in_quotes
              else
                mkField ['%', fmt.getD (close_pos + 1) ' '] modifier in_quotes ::
                  tokenizeAux fmt fuel (close_pos + 2) in_quotes
            else tokenizeAux fmt fuel (pos + 1) in_quotes
          | none => tokenizeAux fmt fuel (pos + 1) in_quotes
        else
          let dir_start := if directive_start = pos + 1 then pos else directive_start
          if dir_start + 1 < fmt.length ∧ fmt.getD dir_start ' ' = '%' ∧
              (fmt.getD (dir_start + 1) ' ' = '>' ∨ fmt.getD (dir_start + 1) ' ' = '<') then
            mkField (subStr fmt dir_start 3) [] in_quotes ::
              tokenizeAux fmt fuel (dir_start + 3) in_quotes
          else if directive_start > pos + 1 then
            mkField ['%', fmt.getD directive_start ' '] [] in_quotes ::
              tokenizeAux fmt fuel (directive_start + 1) in_quotes
          else
            mkField (subStr fmt pos 2) [] in_quotes ::
              tokenizeAux fmt fuel (pos + 2) in_quotes
      else tokenizeAux fmt fuel (pos + 1) in_quotes
    else []

/-- The tokenization pass over a whole format string. -/
def tokenize (fmt : List Char) : List FormatField :=
  tokenizeAux fmt (fmt.length + 1) 0 false

end HttpdLog

namespace HttpdLog

/-! ### Column-name collision resolution (`ResolveColumnNameCollisions`) -/

instance : Inhabited FormatField :=
  ⟨{ directive := "", column_name := "", ty := LogicalTypeId.varchar }⟩

/-- `IsRequestLineDirective`. -/
def IsRequestLineDirective (d : String) : Bool :=
  d == "%r" || d == "%>r" || d == "%<r"

/-- `IsPathDirective`. -/
def IsPathDirective (d : String) : Bool :=
  d == "%U" || d == "%>U" || d == "%<U"

/-- `GetDurationPriority`. -/
def GetDurationPriority (directive modifier : String) : Int :=
  if directive == "%D" || directive == "%>D" || directive == "%<D" then 0
  else if directive == "%T" || directive == "%>T" || directive == "%<T" then
    if modifier == "us" then 1
    else if modifier == "ms" then 2
    else if modifier == "s" then 4
    else 3
  else -1

/-- Index of the last field satisfying `p` (the C++ scan overwrites
`r_field_idx` on every match, so the last match wins). -/
def lastIdxWhere (l : List FormatField) (p : FormatField → Bool) : Option Nat :=
  l.enum.foldl (fun acc ia => if p ia.2 then some ia.1 else acc) none

/-- Step 0: when `%m` / `%U` variants / `%q` / `%H` appear alongside a `%r`
variant, set the corresponding `skip_*` flags on the `%r` field. -/
def resolveRequestSkips (fields : List FormatField) : List FormatField :=
  let has_m := fields.any (fun f => f.directive == "%m")
  let has_U := fields.any (fun f => IsPathDirective f.directive)
  let has_q := fields.any (fun f => f.directive == "%q")
  let has_H := fields.any (fun f => f.directive == "%H")
  match lastIdxWhere fields (fun f => IsRequestLineDirective f.directive) with
  | none => fields
  | some ri =>
    fields.mapIdx (fun i f =>
      if i = ri then
        { f with skip_method := has_m || f.skip_method,
                 skip_path := has_U || f.skip_path,
                 skip_query_string := has_q || f.skip_query_string,
                 skip_protocol := has_H || f.skip_protocol }
      else f)

/-- Update a `TimestampGroup`'s component flags for one member's type. -/
def groupFlagsUpdate (g : TimestampGroup) (t : TimestampFormatType) : TimestampGroup :=
  match t with
  | TimestampFormatType.APACHE_DEFAULT => { g with has_plain_t := true }
  | TimestampFormatType.EPOCH_SEC => { g with has_epoch_component := true }
  | TimestampFormatType.EPOCH_MSEC => { g with has_epoch_component := true }
  | TimestampFormatType.EPOCH_USEC => { g with has_epoch_component := true }
  | TimestampFormatType.FRAC_MSEC => { g with has_frac_component := true }
  | TimestampFormatType.FRAC_USEC => { g with has_frac_component := true }
  | TimestampFormatType.STRFTIME => { g with has_strftime_component := true }

def modifyLast (l : List α) (f : α → α) : List α :=
  match l with
  | [] => []
  | [a] => [f a]
  | a :: b :: rest => a :: modifyLast (b :: rest) f

/-- State of the step-0.5 scan that groups consecutive `%t` fields. -/
structure GroupScanState where
  gid : Int := 0
  in_group : Bool := false
  group_is_end : Bool := false
  idx : Nat := 0
  groups : List TimestampGroup := []
  rev_fields : List FormatField := []

/-- One iteration of the step-0.5 scan. -/
def groupStep (st : GroupScanState) (f : FormatField) : GroupScanState :=
  if f.directive == "%t" then
    let start_new := !st.in_group || (f.is_end_timestamp != st.group_is_end)
    if start_new then
      let gid' := if st.in_group then st.gid + 1 else st.gid
      let f' := { f with timestamp_group_id := gid' }
      let g := groupFlagsUpdate { field_indices := [st.idx] } f.timestamp_type
      { gid := gid', in_group := true, group_is_end := f.is_end_timestamp,
        idx := st.idx + 1, groups := st.groups ++ [g], rev_fields := f' :: st.rev_fields }
    else
      let f' := { f with timestamp_group_id := st.gid, should_skip := true }
      let gs := modifyLast st.groups (fun g =>
        groupFlagsUpdate { g with field_indices := g.field_indices ++ [st.idx] }
          f.timestamp_type)
      { st with idx := st.idx + 1, groups := gs, rev_fields := f' :: st.rev_fields }
  else
    let st' := if st.in_group then { st with in_group := false, gid := st.gid + 1 } else st
    { st' with idx := st'.idx + 1, rev_fields := f :: st'.rev_fields }

/-- Step 0.5: group consecutive `%t` directives into timestamp groups,
marking every non-leader with `should_skip`. -/
def groupTimestamps (fields : List FormatField) :
    List FormatField × List TimestampGroup :=
  let st := fields.foldl groupStep {}
  (st.rev_fields.reverse, st.groups)

/-- Step 0.6: when both begin and end timestamps exist, begin leaders are
renamed to `timestamp_original`. -/
def renameBeginEnd (fields : List FormatField) : List FormatField :=
  let has_end := fields.any (fun f =>
    f.directive == "%t" && !f.should_skip && f.is_end_timestamp)
  let has_begin := fields.any (fun f =>
    f.directive == "%t" && !f.should_skip && !f.is_end_timestamp)
  if has_end && has_begin then
    fields.map (fun f =>
      if f.directive == "%t" && !f.should_skip && !f.is_end_timestamp then
        { f with column_name := "timestamp_original" }
      else f)
  else fields

/-- Field indices whose (current) column name equals `name`, in order
(the vectors of the C++ `collision_map`). -/
def bucketIdxs (fields : List FormatField) (name : String) : List Nat :=
  (fields.enum.filter (fun ia => ia.2.column_name == name)).map (fun ia => ia.1)

/-- Duration special case: index of the highest-precision duration field
(C++ scan with strict improvement). -/
def bestDurationIdx (fields : List FormatField) (idxs : List Nat) : Nat :=
  match idxs with
  | [] => 0
  | i0 :: _ =>
    let fld := fun i => (fields.get? i).getD default
    let p0 := GetDurationPriority (fld i0).directive (fld i0).modifier
    (idxs.foldl (fun (acc : Nat × Int) i =>
      let p := GetDurationPriority (fld i).directive (fld i).modifier
      if p ≥ 0 ∧ (acc.2 < 0 ∨ p < acc.2) then (i, p) else acc) (i0, p0)).1

/-- Equivalence special cases (`process_id`, `server_port`): the bare form
wins; otherwise the first field with the given modifier; otherwise the
first bucket member. -/
def bestEquivIdx (fields : List FormatField) (idxs : List Nat)
    (dir modName : String) : Nat :=
  let fld := fun i => (fields.get? i).getD default
  match idxs.find? (fun i => (fld i).directive == dir && (fld i).modifier == "") with
  | some i => i
  | none =>
    match idxs.find? (fun i => (fld i).directive == dir && (fld i).modifier == modName) with
    | some i => i
    | none => idxs.headD 0

/-- Case-B record (`struct FieldWithDef`). -/
structure FieldWithDef where
  field_idx : Nat
  def? : Option DirectiveDefinition
  priority : Int

/-- Stable insertion of `x` after all already-placed elements `y` with
`le y x`. -/
def insertSorted (le : α → α → Bool) (x : α) : List α → List α
  | [] => [x]
  | y :: ys => if le y x then y :: insertSorted le x ys else x :: y :: ys

/-- Stable sort (models the `std::sort` by `collision_priority`; `std::sort`
is unstable, but ties are resolved here by input order, fixing one of the
behaviours the C++ may exhibit). -/
def insertionSort (le : α → α → Bool) : List α → List α
  | [] => []
  | x :: xs => insertSorted le x (insertionSort le xs)

/-- Case-B name assignment: priority winner keeps the base name, the
others get their catalog suffix (or `_<priority>`), then duplicate names
within the bucket are numbered in sorted order. -/
def caseBAssignment (fields : List FormatField) (column_name : String)
    (idxs : List Nat) : List (Nat × String) :=
  let fld := fun i => (fields.get? i).getD default
  let fwds : List FieldWithDef := idxs.map (fun i =>
    let d := GetDirectiveDefinition (fld i).directive
    { field_idx := i, def? := d,
      priority := match d with | some dd => dd.collision_priority | none => 999 })
  let sorted := insertionSort (fun a b => a.priority ≤ b.priority) fwds
  let withNames : List (Nat × String) :=
    match sorted with
    | [] => []
    | first :: rest =>
      (first.field_idx, column_name) ::
        rest.map (fun fwd =>
          match fwd.def? with
          | some dd =>
            if dd.collision_suffix ≠ "" then
              (fwd.field_idx, column_name ++ dd.collision_suffix)
            else (fwd.field_idx, column_name ++ "_" ++ toString fwd.priority)
          | none => (fwd.field_idx, column_name ++ "_" ++ toString fwd.priority))
  -- name_counts pass: number duplicates in sorted order
  (withNames.foldl (fun (acc : List (String × Nat) × List (Nat × String)) en =>
    let counts := acc.1
    let count := ((counts.find? (fun c => c.1 == en.2)).map (fun c => c.2)).getD 0 + 1
    let counts' := (en.2, count) :: counts.filter (fun c => c.1 != en.2)
    let name' := if count > 1 then en.2 ++ "_" ++ toString count else en.2
    (counts', acc.2 ++ [(en.1, name')])) ([], [])).2

/-- Apply new column names from an assignment list. -/
def applyNames (fields : List FormatField) (assignment : List (Nat × String)) :
    List FormatField :=
  fields.mapIdx (fun i f =>
    match assignment.find? (fun a => a.1 = i) with
    | some a => { f with column_name := a.2 }
    | none => f)

/-- Mark `should_skip` on the given indices. -/
def applySkips (fields : List FormatField) (skips : List Nat) : List FormatField :=
  fields.mapIdx (fun i f => if i ∈ skips then { f with should_skip := true } else f)

/-- Process one collision bucket (the body of the step-2 loop). -/
def applyBucket (fields : List FormatField) (column_name : String)
    (idxs : List Nat) : List FormatField :=
  if idxs.length ≤ 1 then fields
  else
    let fld := fun i => (fields.get? i).getD default
    if column_name == "duration" || column_name == "duration_original" then
      let best := bestDurationIdx fields idxs
      applySkips fields (idxs.filter (fun i => i ≠ best))
    else if column_name == "process_id" then
      let best := bestEquivIdx fields idxs "%P" "pid"
      applySkips fields (idxs.filter (fun i => i ≠ best))
    else if column_name == "server_port" then
      let best := bestEquivIdx fields idxs "%p" "canonical"
      applySkips fields (idxs.filter (fun i => i ≠ best))
    else if column_name == "bytes" then
      applySkips fields (idxs.drop 1)
    else
      let sameDir := idxs.all (fun i => (fld i).directive == (fld (idxs.headD 0)).directive)
      if sameDir then
        -- Case A: duplicates of the same directive: number them _2, _3, ...
        applyNames fields ((idxs.drop 1).enum.map (fun (ji : Nat × Nat) =>
          (ji.2, column_name ++ "_" ++ toString (ji.1 + 2))))
      else
        -- Case B: different directives with the same column name
        applyNames fields (caseBAssignment fields column_name idxs)

/-- `HttpdLogFormatParser::ResolveColumnNameCollisions`.
The C++ iterates an `unordered_map` whose buckets are disjoint and whose
processing is independent, so bucket order is irrelevant; the embedding
fixes first-occurrence order of the column names. -/
def ResolveColumnNameCollisions (fields0 : List FormatField) :
    List FormatField × List TimestampGroup :=
  let f1 := resolveRequestSkips fields0
  let p2 := groupTimestamps f1
  let f3 := renameBeginEnd p2.1
  let names := (f3.map (fun f => f.column_name)).eraseDups
  let buckets := names.map (fun n => (n, bucketIdxs f3 n))
  let f4 := buckets.foldl (fun fs nb => applyBucket fs nb.1 nb.2) f3
  (f4, p2.2)

end HttpdLog

namespace HttpdLog

/-! ### Regex pattern emission (`GenerateRegexPattern`, `StrftimeToRegex`) -/

/-- Regex metacharacter escaping used for literal characters inside a
strftime format (`StrftimeToRegex`, literal branch). -/
def escStrfChar (c : Char) : List Char :=
  if c = '.' ∨ c = '*' ∨ c = '+' ∨ c = '?' ∨ c = '^' ∨ c = '$' ∨ c = '(' ∨ c = ')' ∨
      c = '[' ∨ c = ']' ∨ c = '{' ∨ c = '}' ∨ c = '|' ∨ c = '\\' then ['\\', c]
  else [c]

/-- Regex fragment for one strftime specifier (`StrftimeToRegex`). -/
def strfSpecRegex (spec : String) : List Char :=
  if spec = "%Y" then "\\d{4}".data
  else if spec = "%y" then "\\d{2}".data
  else if spec = "%m" then "\\d{2}".data
  else if spec = "%-m" then "\\d{1,2}".data
  else if spec = "%d" then "\\d{2}".data
  else if spec = "%-d" then "\\d{1,2}".data
  else if spec = "%e" then "[\\s\\d]\\d".data
  else if spec = "%b" ∨ spec = "%h" then "[A-Za-z]{3}".data
  else if spec = "%B" then "[A-Za-z]+".data
  else if spec = "%H" then "\\d{2}".data
  else if spec = "%-H" then "\\d{1,2}".data
  else if spec = "%I" then "\\d{2}".data
  else if spec = "%-I" then "\\d{1,2}".data
  else if spec = "%M" then "\\d{2}".data
  else if spec = "%S" then "\\d{2}".data
  else if spec = "%f" then "\\d{6}".data
  else if spec = "%z" then "[+-]\\d{4}".data
  else if spec = "%Z" then "[A-Za-z/_]+".data
  else if spec = "%T" then "\\d{2}:\\d{2}:\\d{2}".data
  else if spec = "%R" then "\\d{2}:\\d{2}".data
  else if spec = "%j" then "\\d{3}".data
  else if spec = "%a" then "[A-Za-z]{3}".data
  else if spec = "%A" then "[A-Za-z]+".data
  else if spec = "%p" ∨ spec = "%P" then "[AaPp][Mm]".data
  else if spec = "%n" then "\\n".data
  else if spec = "%t" then "\\t".data
  else if spec = "%%" then "%".data
  else "\\S+".data

/-- `StrftimeToRegex`.  A `%-` pair at the very end of the format (no third
character) is read as the two-character specifier `%-`, matching the C++
bounds check. -/
def strftimeToRegex : List Char → List Char
  | [] => []
  | '%' :: '-' :: c :: rest =>
    strfSpecRegex (String.mk ['%', '-', c]) ++ strftimeToRegex rest
  | '%' :: next :: rest =>
    strfSpecRegex (String.mk ['%', next]) ++ strftimeToRegex rest
  | c :: rest => escStrfChar c ++ strftimeToRegex rest

/-- Regex metacharacter escaping for literal format characters
(`GenerateRegexPattern`, final `else`; note `[` and `]` are handled by
their own branches there and are not in this set). -/
def escFmtChar (c : Char) : List Char :=
  if c = '.' ∨ c = '*' ∨ c = '+' ∨ c = '?' ∨ c = '^' ∨ c = '$' ∨ c = '(' ∨ c = ')' ∨
      c = '{' ∨ c = '}' ∨ c = '|' ∨ c = '\\' then ['\\', c]
  else [c]

/-- Skip a run of spaces and tabs (fuelled like `skipDigitsCommas`). -/
def skipWsFrom (fmt : List Char) : Nat → Nat → Nat
  | 0, i => i
  | fuel + 1, i =>
    match fmt.get? i with
    | some c => if c = ' ' ∨ c = '\t' then skipWsFrom fmt fuel (i + 1) else i
    | none => i

theorem skipWsFrom_ge (fmt : List Char) (fuel i : Nat) : i ≤ skipWsFrom fmt fuel i := by
  induction fuel generalizing i with
  | zero => simp [skipWsFrom]
  | succ fuel ih =>
    unfold skipWsFrom
    split
    · split
      · have := ih (i + 1)
        omega
      · exact Nat.le_refl i
    · exact Nat.le_refl i

/-- The regex text emitted at a directive position for field `f`
(one stream append of the C++ loop body). -/
def fieldToken (f : FormatField) : List Char :=
  let wrap := fun (e : List Char) =>
    if !f.should_skip then '(' :: e ++ [')'] else '(' :: '?' :: ':' :: e ++ [')']
  if f.is_quoted then wrap "[^\"]*".data
  else if f.directive = "%t" then
    match f.timestamp_type with
    | TimestampFormatType.APACHE_DEFAULT => "\\[([^\\]]+)\\]".data
    | TimestampFormatType.EPOCH_SEC => '(' :: "\\d+".data ++ [')']
    | TimestampFormatType.EPOCH_MSEC => '(' :: "\\d+".data ++ [')']
    | TimestampFormatType.EPOCH_USEC => '(' :: "\\d+".data ++ [')']
    | TimestampFormatType.FRAC_MSEC => '(' :: "\\d{3}".data ++ [')']
    | TimestampFormatType.FRAC_USEC => '(' :: "\\d{6}".data ++ [')']
    | TimestampFormatType.STRFTIME =>
      '(' :: strftimeToRegex f.strftime_format.data ++ [')']
  else wrap "\\S+".data

/-- The loop of `GenerateRegexPattern`, emitting the stream appends as a
token list (the C++ `ostringstream` output is their concatenation).
The `in_quotes` flag the C++ tracks is write-only there and is omitted.
Structural recursion on fuel; each iteration advances `pos` or consumes a
field, so `fmt.length + |fields| + 1` fuel is always enough. -/
def genTokens (fmt : List Char) : Nat → Nat → List FormatField → List (List Char)
  | 0, _, _ => []
  | fuel + 1, pos, fields =>
    if pos < fmt.length then
      let c := fmt.getD pos ' '
      if c = '"' then ['"'] :: genTokens fmt fuel (pos + 1) fields
      else if c = '%' ∧ fields ≠ [] then
        let field := fields.headD default
        let pos2 :=
          if field.modifier ≠ "" then
            match findCharFrom fmt '}' pos with
            | some close_pos => close_pos + 2
            | none => pos
          else pos + field.directive.length
        fieldToken field :: genTokens fmt fuel pos2 fields.tail
      else if c = ' ' ∨ c = '\t' then
        "\\s+".data :: genTokens fmt fuel (skipWsFrom fmt fmt.length (pos + 1)) fields
      else if c = '[' then "\\[".data :: genTokens fmt fuel (pos + 1) fields
      else if c = ']' then "\\]".data :: genTokens fmt fuel (pos + 1) fields
      else escFmtChar c :: genTokens fmt fuel (pos + 1) fields
    else []

/-- `HttpdLogFormatParser::GenerateRegexPattern`. -/
def GenerateRegexPattern (pf : ParsedFormat) : List Char :=
  '^' :: (genTokens pf.original_format_str
    (pf.original_format_str.length + pf.fields.length + 1) 0 pf.fields).flatten

/-- `HttpdLogFormatParser::ParseFormatString` (minus regex compilation,
which is modelled at match time). -/
def ParseFormatString (format_str : List Char) : ParsedFormat :=
  let fields0 := tokenize format_str
  let p := ResolveColumnNameCollisions fields0
  let pf : ParsedFormat :=
    { original_format_str := format_str, fields := p.1, timestamp_groups := p.2 }
  { pf with regex_pattern := GenerateRegexPattern pf, has_regex := true }

end HttpdLog

namespace HttpdLog

/-! ### Regex matching

`ParseLogLine` calls RE2's `FullMatchN` on the compiled pattern.  RE2 is an
external library; its behaviour on the pattern dialect that
`GenerateRegexPattern` emits (literals, escapes, character classes,
`* + {n} {m,n}` quantifiers and non-nested groups) is modelled here by a
pattern parser (`rdParsePattern`) and a greedy backtracking matcher
(`matchItems`) that, like `FullMatchN`, must consume the entire input. -/

/-- An element of a character class. -/
inductive ClsItem where
  | lit (c : Char)
  | rng (lo hi : Char)
  | perlD
  | perlS
  deriving DecidableEq, Repr

/-- A matchable atom. -/
inductive RAtom where
  | lit (c : Char)
  | cls (neg : Bool) (items : List ClsItem)
  | digit
  | space
  | nonspace
  deriving DecidableEq, Repr

/-- A quantifier. -/
inductive Quant where
  | one
  | star
  | plus
  | exactly (n : Nat)
  | between (lo hi : Nat)
  deriving DecidableEq, Repr

/-- A top-level regex element: a quantified atom or a (non-nested) group. -/
inductive RItem where
  | piece (a : RAtom) (q : Quant)
  | group (capturing : Bool) (idx : Nat) (pieces : List (RAtom × Quant))
  deriving DecidableEq, Repr

/-- RE2's `\s`: space, tab, newline, carriage return, form feed, vertical tab. -/
def isSpaceRE (c : Char) : Bool :=
  c = ' ' || c = '\t' || c = '\n' || c = '\r' || c = '\x0c' || c = '\x0b'

def clsItemMatches (it : ClsItem) (c : Char) : Bool :=
  match it with
  | ClsItem.lit x => c = x
  | ClsItem.rng lo hi => lo ≤ c ∧ c ≤ hi
  | ClsItem.perlD => c.isDigit
  | ClsItem.perlS => isSpaceRE c

def atomMatches (a : RAtom) (c : Char) : Bool :=
  match a with
  | RAtom.lit x => c = x
  | RAtom.cls neg items => (items.any (fun it => clsItemMatches it c)) != neg
  | RAtom.digit => c.isDigit
  | RAtom.space => isSpaceRE c
  | RAtom.nonspace => !isSpaceRE c

/-- Length of the longest prefix of `s` whose characters all match `a`. -/
def maxRun (a : RAtom) : List Char → Nat
  | [] => 0
  | c :: rest => if atomMatches a c then maxRun a rest + 1 else 0

/-- Candidate consumption lengths for one quantified atom, in backtracking
preference order (greedy: longest first). -/
def candLens (a : RAtom) (q : Quant) (s : List Char) : List Nat :=
  let mr := maxRun a s
  match q with
  | Quant.one => if 1 ≤ mr then [1] else []
  | Quant.star => (List.range (mr + 1)).reverse
  | Quant.plus => ((List.range mr).map (fun i => i + 1)).reverse
  | Quant.exactly n => if n ≤ mr then [n] else []
  | Quant.between lo hi =>
    (((List.range (min mr hi + 1)).filter (fun ℓ => lo ≤ ℓ)).reverse)

/-- All lengths ℓ such that the atom sequence can match exactly the first
ℓ characters of `s`, in backtracking preference order. -/
def matchLens : List (RAtom × Quant) → List Char → List Nat
  | [], _ => [0]
  | (a, q) :: ps, s =>
    (candLens a q s).flatMap (fun ℓ =>
      (matchLens ps (s.drop ℓ)).map (fun ℓ2 => ℓ + ℓ2))

/-- Full-match of an item sequence against `s`, returning the list of
captured slices (capture index, slice). `none` = no match. -/
def matchItems : List RItem → List Char → Option (List (Nat × List Char))
  | [], s => if s = [] then some [] else none
  | RItem.piece a q :: rest, s =>
    (candLens a q s).findSome? (fun ℓ => matchItems rest (s.drop ℓ))
  | RItem.group cap idx pieces :: rest, s =>
    (matchLens pieces s).findSome? (fun ℓ =>
      (matchItems rest (s.drop ℓ)).map (fun slots =>
        if cap then (idx, s.take ℓ) :: slots else slots))

/-! #### Pattern parsing (recursive descent over the emitted dialect) -/

/-- Parse the body of a character class up to the closing `]`. -/
def parseClsItems (s : List Char) (fuel : Nat) : Option (List ClsItem × List Char) :=
  match fuel with
  | 0 => none
  | fuel + 1 =>
    match s with
    | ']' :: rest => some ([], rest)
    | '\\' :: c :: rest =>
      let item := if c = 'd' then ClsItem.perlD
        else if c = 's' then ClsItem.perlS
        else ClsItem.lit c
      (parseClsItems rest fuel).map (fun p => (item :: p.1, p.2))
    | a :: '-' :: b :: rest =>
      if b = ']' then
        -- `-` just before `]` is a literal
        (parseClsItems ('-' :: b :: rest) fuel).map (fun p => (ClsItem.lit a :: p.1, p.2))
      else
        (parseClsItems rest fuel).map (fun p => (ClsItem.rng a b :: p.1, p.2))
    | a :: rest =>
      (parseClsItems rest fuel).map (fun p => (ClsItem.lit a :: p.1, p.2))
    | [] => none

/-- Parse one atom. -/
def parseAtom (s : List Char) (fuel : Nat) : Option (RAtom × List Char) :=
  match s with
  | '\\' :: c :: rest =>
    if c = 'd' then some (RAtom.digit, rest)
    else if c = 's' then some (RAtom.space, rest)
    else if c = 'S' then some (RAtom.nonspace, rest)
    else if c = 'n' then some (RAtom.lit '\n', rest)
    else if c = 't' then some (RAtom.lit '\t', rest)
    else some (RAtom.lit c, rest)
  | '[' :: '^' :: rest =>
    (parseClsItems rest fuel).map (fun p => (RAtom.cls true p.1, p.2))
  | '[' :: rest =>
    (parseClsItems rest fuel).map (fun p => (RAtom.cls false p.1, p.2))
  | '(' :: _ => none
  | ')' :: _ => none
  | '*' :: _ => none
  | '+' :: _ => none
  | c :: rest => some (RAtom.lit c, rest)
  | [] => none

/-- Parse a decimal number. -/
def parseNatLit (s : List Char) (acc : Nat) : Nat × List Char :=
  match s with
  | c :: rest =>
    if c.isDigit then parseNatLit rest (acc * 10 + (c.toNat - '0'.toNat))
    else (acc, s)
  | [] => (acc, s)

/-- Parse an optional quantifier. -/
def parseQuant (s : List Char) : Option (Quant × List Char) :=
  match s with
  | '*' :: rest => some (Quant.star, rest)
  | '+' :: rest => some (Quant.plus, rest)
  | '{' :: rest =>
    let p1 := parseNatLit rest 0
    match p1.2 with
    | '}' :: rest2 => some (Quant.exactly p1.1, rest2)
    | ',' :: rest2 =>
      let p2 := parseNatLit rest2 0
      match p2.2 with
      | '}' :: rest3 => some (Quant.between p1.1 p2.1, rest3)
      | _ => none
    | _ => none
  | _ => some (Quant.one, s)

/-- Parse a group body (quantified atoms) up to the closing `)`. -/
def parseGroupBody (s : List Char) (fuel : Nat) :
    Option (List (RAtom × Quant) × List Char) :=
  match fuel with
  | 0 => none
  | fuel + 1 =>
    match s with
    | ')' :: rest => some ([], rest)
    | _ =>
      match parseAtom s fuel with
      | none => none
      | some (a, rest) =>
        match parseQuant rest with
        | none => none
        | some (q, rest2) =>
          (parseGroupBody rest2 fuel).map (fun p => ((a, q) :: p.1, p.2))

/-- Parse a sequence of top-level items, assigning capture indices in order. -/
def rdItems (s : List Char) (capIdx : Nat) (fuel : Nat) : Option (List RItem) :=
  match fuel with
  | 0 => none
  | fuel + 1 =>
    match s with
    | [] => some []
    | '(' :: '?' :: ':' :: rest =>
      match parseGroupBody rest fuel with
      | none => none
      | some (pieces, rest2) =>
        (rdItems rest2 capIdx fuel).map (fun items =>
          RItem.group false 0 pieces :: items)
    | '(' :: rest =>
      match parseGroupBody rest fuel with
      | none => none
      | some (pieces, rest2) =>
        (rdItems rest2 (capIdx + 1) fuel).map (fun items =>
          RItem.group true capIdx pieces :: items)
    | _ =>
      match parseAtom s fuel with
      | none => none
      | some (a, rest) =>
        match parseQuant rest with
        | none => none
        | some (q, rest2) =>
          (rdItems rest2 capIdx fuel).map (fun items => RItem.piece a q :: items)

/-- Parse an emitted pattern (a leading `^` is start anchoring, which is
implicit in `FullMatchN`). -/
def rdParsePattern (s : List Char) : Option (List RItem) :=
  match s with
  | '^' :: rest => rdItems rest 0 (rest.length + 1)
  | _ => rdItems s 0 (s.length + 1)

/-- Number of capturing groups (`RE2::NumberOfCapturingGroups`). -/
def countCapsAst (items : List RItem) : Nat :=
  items.countP (fun it =>
    match it with
    | RItem.group true _ _ => true
    | _ => false)

def lookupSlot (slots : List (Nat × List Char)) (i : Nat) : List Char :=
  ((slots.find? (fun p => p.1 = i)).map (fun p => p.2)).getD []

/-- `HttpdLogFormatParser::ParseLogLine`: run the compiled regex as a full
match; on success return one string per capturing group, otherwise the
empty vector (the parse-failure marker). -/
def ParseLogLine (line : List Char) (pf : ParsedFormat) : List String :=
  if !pf.has_regex then []
  else
    match rdParsePattern pf.regex_pattern with
    | none => []
    | some items =>
      match matchItems items line with
      | none => []
      | some slots =>
        (List.range (countCapsAst items)).map (fun i => String.mk (lookupSlot slots i))

end HttpdLog

namespace HttpdLog

/-! ### Numeric conversions (`std::stoi` / `std::stoll`) and date-time model -/

/-- `std::isspace` (C locale). -/
def isSpaceCpp (c : Char) : Bool :=
  c = ' ' || c = '\t' || c = '\n' || c = '\x0b' || c = '\x0c' || c = '\r'

def digitsToNat (ds : List Char) : Nat :=
  ds.foldl (fun acc c => acc * 10 + (c.toNat - '0'.toNat)) 0

/-- Shared core of `std::stoi`/`std::stoll` (base 10): skip whitespace,
optional sign, at least one digit (else `invalid_argument`), ignore
trailing characters. -/
def cppStrToIntCore (s : List Char) : Option Int :=
  let s1 := s.dropWhile isSpaceCpp
  let p : Int × List Char :=
    match s1 with
    | '-' :: r => (-1, r)
    | '+' :: r => (1, r)
    | _ => (1, s1)
  let ds := p.2.takeWhile (fun c => c.isDigit)
  if ds.isEmpty then none
  else some (p.1 * (digitsToNat ds : Int))

/-- `std::stoi`: `none` when the C++ would throw (`invalid_argument` or
`out_of_range` beyond the `int` range). -/
def cppStoi (s : String) : Option Int :=
  (cppStrToIntCore s.data).bind (fun v =>
    if -(2 ^ 31) ≤ v ∧ v < 2 ^ 31 then some v else none)

/-- `std::stoll`: same with the `long long` range. -/
def cppStoll (s : String) : Option Int :=
  (cppStrToIntCore s.data).bind (fun v =>
    if -(2 ^ 63) ≤ v ∧ v < 2 ^ 63 then some v else none)

def isLeapYear (y : Int) : Bool :=
  y % 4 = 0 && (y % 100 ≠ 0 || y % 400 = 0)

def daysInMonth (y m : Int) : Int :=
  if m = 1 then 31 else if m = 2 then (if isLeapYear y then 29 else 28)
  else if m = 3 then 31 else if m = 4 then 30 else if m = 5 then 31
  else if m = 6 then 30 else if m = 7 then 31 else if m = 8 then 31
  else if m = 9 then 30 else if m = 10 then 31 else if m = 11 then 30
  else 31

/-- Days from 1970-01-01 to `y-m-d` in the proleptic Gregorian calendar
(for `1 ≤ y`; Hinnant's civil-days algorithm over `Nat`). -/
def daysFromCivil (y m d : Nat) : Int :=
  let yr := if m ≤ 2 then y - 1 else y
  let era := yr / 400
  let yoe := yr % 400
  let mp := (m + 9) % 12
  let doy := (153 * mp + 2) / 5 + (d - 1)
  let doe := yoe * 365 + yoe / 4 - yoe / 100 + doy
  (era * 146097 + doe : Int) - 719468

/-- Models duckdb `Date::FromDate` (validates, result = days since epoch;
the C++ throws on an invalid date, which callers catch). -/
def dateFromDate (y m d : Int) : Option Int :=
  if 1 ≤ y ∧ 1 ≤ m ∧ m ≤ 12 ∧ 1 ≤ d ∧ d ≤ daysInMonth y m then
    some (daysFromCivil y.toNat m.toNat d.toNat)
  else none

/-- Models duckdb `Time::FromTime` with zero microseconds (validates;
result = microseconds since midnight). -/
def timeFromTime (h mi s : Int) : Option Int :=
  if 0 ≤ h ∧ h < 24 ∧ 0 ≤ mi ∧ mi < 60 ∧ 0 ≤ s ∧ s < 60 then
    some ((h * 3600 + mi * 60 + s) * 1000000)
  else none

def microsPerSec : Int := 1000000
def microsPerMsec : Int := 1000

/-- Epoch microseconds of a UTC instant (spec reference point:
`timestamp = 2000-10-10T20:55:36Z` is `utcMicros 2000 10 10 20 55 36`). -/
def utcMicros (y m d h mi s : Nat) : Int :=
  (daysFromCivil y m d * 86400 + (h * 3600 + mi * 60 + s : Nat)) * microsPerSec

/-! ### `istringstream` extraction model (used by `ParseTimestamp` /
`ParseRequest`) -/

structure IStream where
  chars : List Char
  ok : Bool := true

/-- `iss >> (int&)`: skip whitespace, optional sign, digits (failbit when
none; overflow ignored — inputs of interest are small). -/
def istreamReadInt (st : IStream) : Int × IStream :=
  if !st.ok then (0, st)
  else
    let s1 := st.chars.dropWhile isSpaceCpp
    let p : Int × List Char :=
      match s1 with
      | '-' :: r => (-1, r)
      | '+' :: r => (1, r)
      | _ => (1, s1)
    let ds := p.2.takeWhile (fun c => c.isDigit)
    if ds.isEmpty then (0, { chars := s1, ok := false })
    else (p.1 * (digitsToNat ds : Int), { chars := p.2.drop ds.length, ok := true })

/-- `iss >> (char&)`: skip whitespace, read one character. -/
def istreamReadChar (st : IStream) : Char × IStream :=
  if !st.ok then (' ', st)
  else
    match st.chars.dropWhile isSpaceCpp with
    | c :: rest => (c, { chars := rest, ok := true })
    | [] => (' ', { chars := [], ok := false })

/-- `iss >> (string&)`: skip whitespace, read a whitespace-delimited token. -/
def istreamReadToken (st : IStream) : String × IStream :=
  if !st.ok then ("", st)
  else
    let s1 := st.chars.dropWhile isSpaceCpp
    let tok := s1.takeWhile (fun c => !isSpaceCpp c)
    if tok.isEmpty then ("", { chars := s1, ok := false })
    else (String.mk tok, { chars := s1.drop tok.length, ok := true })

def monthAbbrevs : List String :=
  ["Jan", "Feb", "Mar", "Apr", "May", "Jun", "Jul", "Aug", "Sep", "Oct", "Nov", "Dec"]

/-- 1-based month from its English three-letter abbreviation; 0 = not found. -/
def monthFromAbbrev (m : String) : Int :=
  match monthAbbrevs.findIdx? (fun a => a = m) with
  | some i => (i : Int) + 1
  | none => 0

/-- `HttpdLogFormatParser::ParseTimestamp`: the Apache CLF timestamp
dialect `DD/MMM/YYYY:HH:MM:SS ±HHMM`, normalized to UTC epoch
microseconds.  `none` covers both a `false` return and the uncaught
exceptions the C++ can raise on a malformed timezone token or invalid
date. -/
def ParseTimestamp (timestamp_str : List Char) : Option Int :=
  let st0 : IStream := { chars := timestamp_str }
  let r1 := istreamReadInt st0
  let r2 := istreamReadChar r1.2
  let m1 := istreamReadChar r2.2
  let m2 := istreamReadChar m1.2
  let m3 := istreamReadChar m2.2
  let r3 := istreamReadChar m3.2
  let r4 := istreamReadInt r3.2
  let r5 := istreamReadChar r4.2
  let r6 := istreamReadInt r5.2
  let r7 := istreamReadChar r6.2
  let r8 := istreamReadInt r7.2
  let r9 := istreamReadChar r8.2
  let r10 := istreamReadInt r9.2
  let r11 := istreamReadToken r10.2
  let day := r1.1
  let year := r4.1
  let hour := r6.1
  let minute := r8.1
  let second := r10.1
  let tz_str := r11.1
  if !r11.2.ok ∨ r2.1 ≠ '/' ∨ r3.1 ≠ '/' ∨ r5.1 ≠ ':' ∨ r7.1 ≠ ':' ∨ r9.1 ≠ ':' then none
  else
    let month := monthFromAbbrev (String.mk [m1.1, m2.1, m3.1])
    if month = 0 then none
    else
      match cppStoi (String.mk (subStr tz_str.data 1 2)),
            cppStoi (String.mk (subStr tz_str.data 3 2)) with
      | some tzh, some tzm =>
        let tz_sign : Int := if tz_str.data.headD ' ' = '-' then -1 else 1
        let tz_offset_seconds := tz_sign * (tzh * 3600 + tzm * 60)
        match dateFromDate year month day, timeFromTime hour minute second with
        | some date, some tmicros =>
          some (date * 86400 * microsPerSec + tmicros - tz_offset_seconds * microsPerSec)
        | _, _ => none
      | _, _ => none

/-- `HttpdLogFormatParser::ParseRequest`: split a request line into
method / path / query string / protocol. -/
def ParseRequest (request : List Char) : Option (String × String × String × String) :=
  let st0 : IStream := { chars := request }
  let r1 := istreamReadToken st0
  let r2 := istreamReadToken r1.2
  let r3 := istreamReadToken r2.2
  if !r3.2.ok then none
  else
    let method := r1.1
    let full_path := r2.1
    let protocol := r3.1
    match full_path.data.findIdx? (fun c => c = '?') with
    | some query_pos =>
      some (method, String.mk (full_path.data.take query_pos),
            String.mk (full_path.data.drop query_pos), protocol)
    | none => some (method, full_path, "", protocol)

end HttpdLog

namespace HttpdLog

/-! ### strftime timestamp parsing and timestamp-group combination
(`httpd_log_file_reader.cpp` / `httpd_log_table_function.cpp` statics) -/

/-- `std::stoi(value.substr(pos, len))`. -/
def stoiAt (v : List Char) (pos len : Nat) : Option Int :=
  cppStoi (String.mk (subStr v pos len))

/-- Mutable locals of `ParseStrftimeTimestamp`. -/
structure StrfState where
  year : Int := 0
  month : Int := 0
  day : Int := 0
  hour : Int := 0
  minute : Int := 0
  second : Int := 0
  tz_offset : Int := 0
  has_timezone : Bool := false

/-- One `%<spec>` step of the `ParseStrftimeTimestamp` loop: returns the
updated state and value position. `none` models the uncaught
`std::stoi` exception on non-digit input (which cannot occur on
regex-validated captures). -/
def strfSpecStep (value : List Char) (spec : Char) (val_pos : Nat) (st : StrfState) :
    Option (StrfState × Nat) :=
  let vlen := value.length
  if spec = 'Y' then
    if val_pos + 4 ≤ vlen then
      (stoiAt value val_pos 4).map (fun y => ({ st with year := y }, val_pos + 4))
    else some (st, val_pos)
  else if spec = 'y' then
    if val_pos + 2 ≤ vlen then
      (stoiAt value val_pos 2).map (fun y =>
        ({ st with year := y + (if y ≥ 70 then 1900 else 2000) }, val_pos + 2))
    else some (st, val_pos)
  else if spec = 'm' then
    if val_pos + 2 ≤ vlen then
      (stoiAt value val_pos 2).map (fun v => ({ st with month := v }, val_pos + 2))
    else some (st, val_pos)
  else if spec = 'd' then
    if val_pos + 2 ≤ vlen then
      (stoiAt value val_pos 2).map (fun v => ({ st with day := v }, val_pos + 2))
    else some (st, val_pos)
  else if spec = 'e' then
    let vp := if value.getD val_pos ' ' = ' ' then val_pos + 1 else val_pos
    if vp + 1 ≤ vlen then
      let nextDigit := '0' ≤ value.getD (vp + 1) '\x00' ∧ value.getD (vp + 1) '\x00' ≤ '9'
      let k := if nextDigit then 2 else 1
      (stoiAt value vp k).map (fun v => ({ st with day := v }, vp + k))
    else some (st, vp)
  else if spec = 'b' ∨ spec = 'h' then
    match monthAbbrevs.findIdx? (fun a => a.data = subStr value val_pos 3) with
    | some i => some ({ st with month := (i : Int) + 1 }, val_pos + 3)
    | none => some (st, val_pos)
  else if spec = 'H' ∨ spec = 'I' then
    if val_pos + 2 ≤ vlen then
      (stoiAt value val_pos 2).map (fun v => ({ st with hour := v }, val_pos + 2))
    else some (st, val_pos)
  else if spec = 'M' then
    if val_pos + 2 ≤ vlen then
      (stoiAt value val_pos 2).map (fun v => ({ st with minute := v }, val_pos + 2))
    else some (st, val_pos)
  else if spec = 'S' then
    if val_pos + 2 ≤ vlen then
      (stoiAt value val_pos 2).map (fun v => ({ st with second := v }, val_pos + 2))
    else some (st, val_pos)
  else if spec = 'T' then
    if val_pos + 8 ≤ vlen then
      match stoiAt value val_pos 2, stoiAt value (val_pos + 3) 2, stoiAt value (val_pos + 6) 2 with
      | some h, some mi, some s =>
        some ({ st with hour := h, minute := mi, second := s }, val_pos + 8)
      | _, _, _ => none
    else some (st, val_pos)
  else if spec = 'z' then
    if val_pos + 5 ≤ vlen then
      match stoiAt value (val_pos + 1) 2, stoiAt value (val_pos + 3) 2 with
      | some h, some mi =>
        let sign : Int := if value.getD val_pos ' ' = '-' then -1 else 1
        some ({ st with tz_offset := sign * (h * 3600 + mi * 60), has_timezone := true },
              val_pos + 5)
      | _, _ => none
    else some (st, val_pos)
  else if spec = 'Z' then
    some (st, val_pos + ((value.drop val_pos).takeWhile (fun c => c ≠ ' ')).length)
  else if spec = '%' then
    if value.getD val_pos ' ' = '%' then some (st, val_pos + 1) else some (st, val_pos)
  else some (st, val_pos)

/-- The scan loop of `ParseStrftimeTimestamp`: `none` = mismatch
(`return false`) or uncaught conversion exception.  Fuelled structural
recursion; every iteration advances `fmt_pos`, so `fmtL.length` fuel is
always enough. -/
def strfLoop (value fmtL : List Char) : Nat → Nat → Nat → StrfState →
    Option StrfState
  | 0, _, _, st => some st
  | fuel + 1, fmt_pos, val_pos, st =>
    if fmt_pos < fmtL.length ∧ val_pos < value.length then
      if fmtL.getD fmt_pos ' ' = '%' ∧ fmt_pos + 1 < fmtL.length then
        let next := fmtL.getD (fmt_pos + 1) ' '
        let useDash := next = '-' ∧ fmt_pos + 2 < fmtL.length
        let spec := if useDash then fmtL.getD (fmt_pos + 2) ' ' else next
        let fmt_pos2 := if useDash then fmt_pos + 3 else fmt_pos + 2
        match strfSpecStep value spec val_pos st with
        | some r => strfLoop value fmtL fuel fmt_pos2 r.2 r.1
        | none => none
      else
        if fmtL.getD fmt_pos ' ' = value.getD val_pos ' ' then
          strfLoop value fmtL fuel (fmt_pos + 1) (val_pos + 1) st
        else none
    else some st

/-- `ParseStrftimeTimestamp`: parse a strftime-formatted value; on success
returns (UTC epoch microseconds, parsed timezone offset in seconds). -/
def ParseStrftimeTimestamp (value fmtL : List Char) : Option (Int × Int) :=
  match strfLoop value fmtL fmtL.length 0 0 {} with
  | none => none
  | some st =>
    if st.year = 0 ∨ st.month = 0 ∨ st.day = 0 then none
    else
      match dateFromDate st.year st.month st.day, timeFromTime st.hour st.minute st.second with
      | some date, some tmicros =>
        let base := date * 86400 * microsPerSec + tmicros
        let adj := if st.has_timezone then base - st.tz_offset * microsPerSec else base
        some (adj, st.tz_offset)
      | _, _ => none

/-- `ParseTimezoneOffset`. -/
def ParseTimezoneOffset (value : List Char) : Option Int :=
  if value.length ≠ 5 then none
  else if value.headD ' ' ≠ '+' ∧ value.headD ' ' ≠ '-' then none
  else
    match cppStoi (String.mk (subStr value 1 2)), cppStoi (String.mk (subStr value 3 2)) with
    | some h, some m =>
      some ((if value.headD ' ' = '-' then (-1 : Int) else 1) * (h * 3600 + m * 60))
    | _, _ => none

/-- Mutable locals of `CombineTimestampGroup`. -/
structure CombineAcc where
  base_epoch_us : Int := 0
  frac_us : Int := 0
  tz_offset_seconds : Int := 0
  has_base : Bool := false
  has_tz : Bool := false
  raw_parts : String := ""
  combined_strftime_value : String := ""
  combined_strftime_format : String := ""
  has_strftime_components : Bool := false

/-- One member step of the `CombineTimestampGroup` loop (`i` = position
within the group, used for the separators and the value offset). -/
def combineStep (pf : ParsedFormat) (parsed_values : List String) (value_idx : Nat)
    (acc : CombineAcc) (p : Nat × Nat) : CombineAcc :=
  let field := (pf.fields.get? p.2).getD default
  let value := parsed_values.getD (value_idx + p.1) ""
  let acc := { acc with raw_parts :=
    (if p.1 > 0 then acc.raw_parts ++ " " else acc.raw_parts) ++ value }
  match field.timestamp_type with
  | TimestampFormatType.APACHE_DEFAULT =>
    match ParseTimestamp value.data with
    | some ts => { acc with base_epoch_us := ts, has_base := true }
    | none => acc
  | TimestampFormatType.EPOCH_SEC =>
    match cppStoll value with
    | some v => { acc with base_epoch_us := v * microsPerSec, has_base := true }
    | none => acc
  | TimestampFormatType.EPOCH_MSEC =>
    match cppStoll value with
    | some v => { acc with base_epoch_us := v * microsPerMsec, has_base := true }
    | none => acc
  | TimestampFormatType.EPOCH_USEC =>
    match cppStoll value with
    | some v => { acc with base_epoch_us := v, has_base := true }
    | none => acc
  | TimestampFormatType.FRAC_MSEC =>
    match cppStoll value with
    | some v => { acc with frac_us := v * microsPerMsec }
    | none => acc
  | TimestampFormatType.FRAC_USEC =>
    match cppStoll value with
    | some v => { acc with frac_us := v }
    | none => acc
  | TimestampFormatType.STRFTIME =>
    { acc with
      combined_strftime_value :=
        (if acc.has_strftime_components then acc.combined_strftime_value ++ " "
         else acc.combined_strftime_value) ++ value,
      combined_strftime_format :=
        (if acc.has_strftime_components then acc.combined_strftime_format ++ " "
         else acc.combined_strftime_format) ++ field.strftime_format,
      has_strftime_components := true }

/-- `CombineTimestampGroup`: combine the members of a timestamp group into
one UTC instant; also returns the raw space-joined concatenation. -/
def CombineTimestampGroup (pf : ParsedFormat) (group : TimestampGroup)
    (parsed_values : List String) (value_idx : Nat) : Option Int × String :=
  let acc := group.field_indices.enum.foldl
    (combineStep pf parsed_values value_idx) {}
  let acc :=
    if acc.has_strftime_components ∧ !acc.has_base then
      match ParseStrftimeTimestamp acc.combined_strftime_value.data
              acc.combined_strftime_format.data with
      | some r => { acc with base_epoch_us := r.1, has_base := true }
      | none =>
        if acc.combined_strftime_format = "%z" then
          match ParseTimezoneOffset acc.combined_strftime_value.data with
          | some tz => { acc with tz_offset_seconds := tz, has_tz := true }
          | none => acc
        else acc
    else acc
  if acc.has_base then
    (some (acc.base_epoch_us + acc.frac_us -
      (if acc.has_tz then acc.tz_offset_seconds * microsPerSec else 0)), acc.raw_parts)
  else (none, acc.raw_parts)

end HttpdLog

namespace HttpdLog

/-! ### Typed output values and row emission -/

/-- A typed cell value; SQL NULL is `Option.none` at the use sites. -/
inductive Value where
  | varcharV (s : String)
  | int32 (n : Int)
  | int64 (n : Int)
  | tstamp (micros : Int)
  | intervalV (micros : Int)
  | boolV (b : Bool)
  deriving DecidableEq, Repr

/-- The known byte-count column names (`bytes_columns` static set). -/
def bytes_columns : List String :=
  ["bytes", "bytes_clf", "bytes_received", "bytes_sent", "bytes_transferred"]

/-- `HttpdLogFileReader::WriteRegularFieldValue` (the same conversion logic
appears inline in `HttpdLogTableFunction::Function`): convert one captured
string for a regular (non-`%t`, non-`%r`) field. `none` = SQL NULL. -/
def WriteRegularFieldValue (field : FormatField) (value : String) : Option Value :=
  if field.ty = LogicalTypeId.varchar then
    if field.directive = "%X" then
      some (Value.varcharV
        (if value = "X" then "aborted"
         else if value = "+" then "keepalive"
         else if value = "-" then "close"
         else value))
    else if value = "-" then none
    else some (Value.varcharV value)
  else if field.ty = LogicalTypeId.integer then
    if value = "-" then none
    else (cppStoi value).map Value.int32
  else if field.ty = LogicalTypeId.bigint then
    if value = "-" then
      if field.column_name ∈ bytes_columns then some (Value.int64 0) else none
    else (cppStoll value).map Value.int64
  else if field.ty = LogicalTypeId.intervalTy then
    if value = "-" then none
    else
      (cppStoll value).map (fun v =>
        Value.intervalV
          (if field.directive = "%T" then
            if field.modifier = "ms" then v * microsPerMsec
            else if field.modifier = "us" then v
            else v * microsPerSec
          else v))
  else none

/-- `HttpdLogFormatParser::GenerateSchema`: ordered column names and types. -/
def GenerateSchema (pf : ParsedFormat) (include_raw_columns : Bool) :
    List (String × LogicalTypeId) :=
  (pf.fields.foldl (fun acc f =>
    if f.should_skip then acc
    else if f.directive = "%t" then acc ++ [(f.column_name, LogicalTypeId.timestampTy)]
    else if f.directive = "%r" ∨ f.directive = "%>r" ∨ f.directive = "%<r" then
      acc ++
        (if !f.skip_method then [("method", LogicalTypeId.varchar)] else []) ++
        (if !f.skip_path then [("path", LogicalTypeId.varchar)] else []) ++
        (if !f.skip_query_string then [("query_string", LogicalTypeId.varchar)] else []) ++
        (if !f.skip_protocol then [("protocol", LogicalTypeId.varchar)] else [])
    else acc ++ [(f.column_name, f.ty)]) []) ++
  [("log_file", LogicalTypeId.varchar)] ++
  (if include_raw_columns then
    [("line_number", LogicalTypeId.bigint),
     ("parse_error", LogicalTypeId.booleanTy),
     ("raw_line", LogicalTypeId.varchar)]
   else [])

/-- State of the per-field output loop of `HttpdLogTableFunction::Function`. -/
structure EmitState where
  value_idx : Nat := 0
  processed_ts_groups : List Int := []
  cells : List (Option Value) := []

/-- One field of the output loop of `HttpdLogTableFunction::Function`
(writes for one `FormatField`, in column order). -/
def emitFieldStep (pf : ParsedFormat) (raw_mode parse_error : Bool)
    (parsed_values : List String) (st : EmitState) (field : FormatField) : EmitState :=
  if field.should_skip then
    if field.directive ≠ "%t" then { st with value_idx := st.value_idx + 1 } else st
  else if parse_error then
    if field.directive = "%t" then
      let gid := field.timestamp_group_id
      let st :=
        if gid ≥ 0 ∧ gid ∉ st.processed_ts_groups then
          let group := (pf.timestamp_groups.get? gid.toNat).getD {}
          { st with processed_ts_groups := gid :: st.processed_ts_groups,
                    value_idx := st.value_idx + group.field_indices.length }
        else if gid < 0 then { st with value_idx := st.value_idx + 1 }
        else st
      { st with cells := st.cells ++ [none] ++
          (if raw_mode then [some (Value.varcharV "")] else []) }
    else if field.directive = "%r" ∨ field.directive = "%>r" ∨ field.directive = "%<r" then
      { st with value_idx := st.value_idx + 1,
                cells := st.cells ++
          (if !field.skip_method then [some (Value.varcharV "")] else []) ++
          (if !field.skip_path then [some (Value.varcharV "")] else []) ++
          (if !field.skip_query_string then [some (Value.varcharV "")] else []) ++
          (if !field.skip_protocol then [some (Value.varcharV "")] else []) }
    else
      { st with value_idx := st.value_idx + 1,
                cells := st.cells ++
          [if field.ty = LogicalTypeId.varchar then some (Value.varcharV "") else none] }
  else
    if field.directive = "%t" then
      let gid := field.timestamp_group_id
      if gid ≥ 0 ∧ gid ∉ st.processed_ts_groups then
        let group := (pf.timestamp_groups.get? gid.toNat).getD {}
        let r := CombineTimestampGroup pf group parsed_values st.value_idx
        { st with processed_ts_groups := gid :: st.processed_ts_groups,
                  value_idx := st.value_idx + group.field_indices.length,
                  cells := st.cells ++ [r.1.map Value.tstamp] ++
                    (if raw_mode then [some (Value.varcharV r.2)] else []) }
      else if gid < 0 then
        let value := parsed_values.getD st.value_idx ""
        { st with value_idx := st.value_idx + 1,
                  cells := st.cells ++ [(ParseTimestamp value.data).map Value.tstamp] ++
            (if raw_mode then [some (Value.varcharV value)] else []) }
      else st
    else if field.directive = "%r" ∨ field.directive = "%>r" ∨ field.directive = "%<r" then
      let value := parsed_values.getD st.value_idx ""
      let st := { st with value_idx := st.value_idx + 1 }
      match ParseRequest value.data with
      | some r =>
        { st with cells := st.cells ++
            (if !field.skip_method then [some (Value.varcharV r.1)] else []) ++
            (if !field.skip_path then [some (Value.varcharV r.2.1)] else []) ++
            (if !field.skip_query_string then
              [if r.2.2.1 = "" then none else some (Value.varcharV r.2.2.1)] else []) ++
            (if !field.skip_protocol then [some (Value.varcharV r.2.2.2)] else []) }
      | none =>
        { st with cells := st.cells ++
            (if !field.skip_method then [some (Value.varcharV "")] else []) ++
            (if !field.skip_path then [some (Value.varcharV "")] else []) ++
            (if !field.skip_query_string then [none] else []) ++
            (if !field.skip_protocol then [some (Value.varcharV "")] else []) }
    else
      let value := parsed_values.getD st.value_idx ""
      { st with value_idx := st.value_idx + 1,
                cells := st.cells ++ [WriteRegularFieldValue field value] }

/-- Per-line row emission of `HttpdLogTableFunction::Function`: `none` when
the line is dropped (parse error outside raw mode), otherwise the ordered
cells of the emitted row (data columns, then `log_file`, then in raw mode
`parse_error` and `raw_line`; no `line_number` value is ever produced). -/
def functionRowValues (pf : ParsedFormat) (raw_mode : Bool) (line : List Char)
    (log_file : String) : Option (List (Option Value)) :=
  let parsed_values := ParseLogLine line pf
  let parse_error := parsed_values.isEmpty
  if parse_error ∧ !raw_mode then none
  else
    let st := pf.fields.foldl (emitFieldStep pf raw_mode parse_error parsed_values) {}
    some (st.cells ++ [some (Value.varcharV log_file)] ++
      (if raw_mode then
        [some (Value.boolV parse_error),
         if parse_error then some (Value.varcharV (String.mk line)) else none]
       else []))

/-! ### Format auto-detection (`DetectFormat`) -/

def combined_format : String := "%h %l %u %t \"%r\" %>s %b \"%{Referer}i\" \"%{User-agent}i\""
def common_format : String := "%h %l %u %t \"%r\" %>s %b"

/-- Matches counted by `DetectFormat`: non-empty sample lines for which the
extractor returns a non-empty result. -/
def countFormatMatches (pf : ParsedFormat) (sample_lines : List String) : Nat :=
  (sample_lines.filter (fun l => !l.isEmpty && !(ParseLogLine l.data pf).isEmpty)).length

/-- `HttpdLogFormatParser::DetectFormat`: the returned string and the
parsed format the caller receives. -/
def DetectFormat (sample_lines : List String) : String × ParsedFormat :=
  if sample_lines.isEmpty then ("unknown", { original_format_str := [] })
  else
    let combined_parsed := ParseFormatString combined_format.data
    let cm := countFormatMatches combined_parsed sample_lines
    if cm > 0 ∧ cm ≥ sample_lines.length / 2 then ("combined", combined_parsed)
    else
      let common_parsed := ParseFormatString common_format.data
      let om := countFormatMatches common_parsed sample_lines
      if om > 0 ∧ om ≥ sample_lines.length / 2 then ("common", common_parsed)
      else ("unknown", { original_format_str := [] })

end HttpdLog

namespace HttpdLog

/-! ### Capture-group counting and detection-rule reference definitions -/

/-- Number of capture groups in a regex pattern text: unescaped `(` not
followed by `?`. -/
def countCaptures : List Char → Nat
  | [] => 0
  | '\\' :: _ :: rest => countCaptures rest
  | '(' :: '?' :: rest => countCaptures rest
  | '(' :: rest => 1 + countCaptures rest
  | _ :: rest => countCaptures rest

/-- The capture count asserted by the specification for C2: non-skipped
fields plus all skipped `%t` fields. -/
def claimedCaptureCount (pf : ParsedFormat) : Nat :=
  (pf.fields.filter (fun f => !f.should_skip)).length +
  (pf.fields.filter (fun f => f.should_skip && f.directive == "%t")).length

/-- The capture count the emitted pattern actually has: non-skipped fields
plus skipped `%t` fields that are not quoted (a quoted `%t` takes the
`is_quoted` branch first and is emitted non-capturing when skipped). -/
def emittedCaptureCount (pf : ParsedFormat) : Nat :=
  (pf.fields.filter (fun f => !f.should_skip)).length +
  (pf.fields.filter (fun f => f.should_skip && f.directive == "%t" && !f.is_quoted)).length

/-- `NumberOfCapturingGroups` of the compiled pattern (0 when the pattern
is outside the modelled dialect). -/
def numCaptureGroups (pf : ParsedFormat) : Nat :=
  ((rdParsePattern pf.regex_pattern).map countCapsAst).getD 0

/-- Modelled from the spec: the detection rule as §4.6 states it, with the
`⌈n/2⌉` threshold (the spec's chosen reading of "match rate ≥ 50%"). -/
def DetectFormatSpecCeil (sample_lines : List String) : String :=
  if sample_lines.isEmpty then "unknown"
  else
    let n := sample_lines.length
    let cm := countFormatMatches (ParseFormatString combined_format.data) sample_lines
    if cm ≥ (n + 1) / 2 then "combined"
    else
      let om := countFormatMatches (ParseFormatString common_format.data) sample_lines
      if om ≥ (n + 1) / 2 then "common"
      else "unknown"

/-- Sample inputs used by the concrete claims. -/
def commonLine : String :=
  "192.168.1.1 - frank [10/Oct/2000:13:55:36 -0700] \"GET /index.html HTTP/1.0\" 200 2326"

def c6Format : String := "[%{%d/%b/%Y}t %{%H:%M:%S}t %{%z}t]"
def c6Line : String := "[10/Oct/2000 13:55:36 -0700]"

def combinedSampleLine : String :=
  "1.2.3.4 - - [10/Oct/2000:13:55:36 -0700] \"GET / HTTP/1.0\" 200 5 \"-\" \"ua\""

/-- A `%b` field as compiled from the format string. -/
def bytesField : FormatField := ((ParseFormatString "%b".data).fields.headD default)

/-- A non-byte-count BIGINT field (`%{Content-Length}i`). -/
def contentLengthField : FormatField :=
  ((ParseFormatString "%{Content-Length}i".data).fields.headD default)

/-- `ParseLogLine` returns either the failure marker or one string per
capturing group (helper for C10). -/
theorem parseLogLine_empty_or_full (pf : ParsedFormat) (line : List Char) :
    ParseLogLine line pf = [] ∨
    (ParseLogLine line pf).length = numCaptureGroups pf := by
  unfold ParseLogLine numCaptureGroups
  cases hr : pf.has_regex with
  | false => left; simp [hr]
  | true =>
    simp only [hr, Bool.not_true, Bool.false_eq_true, if_false]
    cases hp : rdParsePattern pf.regex_pattern with
    | none => left; rfl
    | some items =>
      cases hm : matchItems items line with
      | none => left; simp [hm]
      | some slots =>
        right
        simp [hm]

end HttpdLog

namespace HttpdLog

set_option maxRecDepth 100000

/-- C1: round trip for a Common Log Format line — compiling
`%h %l %u %t "%r" %>s %b` and extracting
`192.168.1.1 - frank [10/Oct/2000:13:55:36 -0700] "GET /index.html HTTP/1.0" 200 2326`
yields `client_ip="192.168.1.1"`, `ident=null`, `auth_user="frank"`,
`timestamp=2000-10-10T20:55:36Z` (UTC microseconds), `method="GET"`,
`path="/index.html"`, `query_string=null`, `protocol="HTTP/1.0"`,
`status=200` as an i32 and `bytes=2326` as an i64. -/
theorem claim_C1_common_log_round_trip :
    GenerateSchema (ParseFormatString common_format.data) false =
      [("client_ip", LogicalTypeId.varchar), ("ident", LogicalTypeId.varchar),
       ("auth_user", LogicalTypeId.varchar), ("timestamp", LogicalTypeId.timestampTy),
       ("method", LogicalTypeId.varchar), ("path", LogicalTypeId.varchar),
       ("query_string", LogicalTypeId.varchar), ("protocol", LogicalTypeId.varchar),
       ("status", LogicalTypeId.integer), ("bytes", LogicalTypeId.bigint),
       ("log_file", LogicalTypeId.varchar)] ∧
    functionRowValues (ParseFormatString common_format.data) false commonLine.data
        "access.log" =
      some [some (Value.varcharV "192.168.1.1"), none, some (Value.varcharV "frank"),
            some (Value.tstamp (utcMicros 2000 10 10 20 55 36)),
            some (Value.varcharV "GET"), some (Value.varcharV "/index.html"), none,
            some (Value.varcharV "HTTP/1.0"), some (Value.int32 200),
            some (Value.int64 2326), some (Value.varcharV "access.log")] := by
  constructor
  · decide
  · decide

/-- C2 (counterexample): for the format `"%t %t"` both `%t` fields sit
between quotes; the skipped second member of the timestamp group is
emitted as a non-capturing `(?:[^"]*)`, so the pattern has 1 capture
group while the claim predicts 2. -/
theorem claim_C2_counterexample_quoted_timestamp_group :
    countCaptures (ParseFormatString "\"%t %t\"".data).regex_pattern = 1 ∧
    claimedCaptureCount (ParseFormatString "\"%t %t\"".data) = 2 := by
  constructor
  · decide
  · decide

/-- C3 (counterexample): the claim that a line whose prefix matches is
extracted successfully despite trailing content fails: extraction uses
full-match semantics, so `%h` extracts `1.2.3.4` but rejects
`1.2.3.4 x`. -/
theorem claim_C3_counterexample_trailing_content :
    ParseLogLine "1.2.3.4".data (ParseFormatString "%h".data) = ["1.2.3.4"] ∧
    ParseLogLine "1.2.3.4 x".data (ParseFormatString "%h".data) = [] := by
  constructor
  · decide
  · decide

/-- C3 (amended): every emitted pattern is prefixed with `^` and carries no
end anchor, but `ParseLogLine` performs a full match (`RE2::FullMatchN`),
so a line with unmatched trailing content is rejected, not tolerated:
with format `%h`, the prefix `1.2.3.4` alone is extracted while
`1.2.3.4 x` yields the parse-failure marker. -/
theorem claim_C3_start_anchor_but_full_match :
    (∀ F : List Char, (ParseFormatString F).regex_pattern.head? = some '^') ∧
    ParseLogLine "1.2.3.4".data (ParseFormatString "%h".data) = ["1.2.3.4"] ∧
    ParseLogLine "1.2.3.4 x".data (ParseFormatString "%h".data) = [] := by
  refine ⟨fun F => rfl, ?_, ?_⟩
  · decide
  · decide

/-- C4: in raw mode `GenerateSchema` declares `line_number` right after
`log_file`, but the table function writes only `log_file`, `parse_error`
and `raw_line` after the data columns — the row for format `%h` and line
`1.2.3.4` has 4 values against 5 schema columns, and no line number is
ever produced (the buffered reader keeps no line counter). -/
theorem claim_C4_line_number_declared_but_never_written :
    (GenerateSchema (ParseFormatString "%h".data) true).map Prod.fst =
      ["client_ip", "log_file", "line_number", "parse_error", "raw_line"] ∧
    functionRowValues (ParseFormatString "%h".data) true "1.2.3.4".data "f.log" =
      some [some (Value.varcharV "1.2.3.4"), some (Value.varcharV "f.log"),
            some (Value.boolV false), none] ∧
    (GenerateSchema (ParseFormatString "%h".data) true).length = 5 := by
  refine ⟨?_, ?_, ?_⟩
  · decide
  · decide
  · decide

/-- C5 (counterexample): with three sample lines of which exactly one
matches the Combined format, `DetectFormat` selects `combined`
(threshold `n / 2 = 1` by integer division), while the claimed
`⌈n/2⌉ = 2` threshold would reject it and fall through to `unknown`. -/
theorem claim_C5_counterexample_ceil_threshold :
    (DetectFormat [combinedSampleLine, "x", "y"]).1 = "combined" ∧
    DetectFormatSpecCeil [combinedSampleLine, "x", "y"] = "unknown" := by
  constructor
  · decide
  · decide

/-- C5 (amended): `DetectFormat` selects `combined` exactly when the
number of matched sample lines is positive and at least `⌊n/2⌋`
(integer division), otherwise `common` under the same rule, otherwise
`unknown`. -/
theorem claim_C5_detection_floor_threshold (sample_lines : List String) :
    (DetectFormat sample_lines).1 =
      (if sample_lines.isEmpty then "unknown"
       else
        let cm := countFormatMatches (ParseFormatString combined_format.data) sample_lines
        if cm > 0 ∧ cm ≥ sample_lines.length / 2 then "combined"
        else
          let om := countFormatMatches (ParseFormatString common_format.data) sample_lines
          if om > 0 ∧ om ≥ sample_lines.length / 2 then "common"
          else "unknown") := by
  simp only [DetectFormat]
  split_ifs <;> rfl

/-- C6: in the format `[%{%d/%b/%Y}t %{%H:%M:%S}t %{%z}t]` the three
consecutive `%t` fields form one group whose leader emits the single
`timestamp` column, and extracting `[10/Oct/2000 13:55:36 -0700]` yields
2000-10-10T20:55:36Z (strftime components concatenated, parsed, `%z`
offset normalized to UTC). -/
theorem claim_C6_timestamp_group_end_to_end :
    (ParseFormatString c6Format.data).timestamp_groups.map
        (fun g => g.field_indices) = [[0, 1, 2]] ∧
    (ParseFormatString c6Format.data).fields.map (fun f => f.should_skip) =
      [false, true, true] ∧
    (GenerateSchema (ParseFormatString c6Format.data) false).map Prod.fst =
      ["timestamp", "log_file"] ∧
    functionRowValues (ParseFormatString c6Format.data) false c6Line.data "f.log" =
      some [some (Value.tstamp (utcMicros 2000 10 10 20 55 36)),
            some (Value.varcharV "f.log")] := by
  refine ⟨?_, ?_, ?_, ?_⟩
  · decide
  · decide
  · decide
  · decide

/-- C7: compiling `%h %D %T` keeps only the highest-precision duration
field — `%T` is marked `should_skip`, the single remaining column is
named `duration` — and extracting `1.2.3.4 1500 2` yields a 1500 µs
interval (the `%D` value taken as microseconds without scaling). -/
theorem claim_C7_duration_precedence :
    (ParseFormatString "%h %D %T".data).fields.map
        (fun f => (f.directive, f.should_skip)) =
      [("%h", false), ("%D", false), ("%T", true)] ∧
    (GenerateSchema (ParseFormatString "%h %D %T".data) false).map Prod.fst =
      ["client_ip", "duration", "log_file"] ∧
    functionRowValues (ParseFormatString "%h %D %T".data) false "1.2.3.4 1500 2".data
        "f.log" =
      some [some (Value.varcharV "1.2.3.4"), some (Value.intervalV 1500),
            some (Value.varcharV "f.log")] := by
  refine ⟨?_, ?_, ?_⟩
  · decide
  · decide
  · decide

/-- C8: for every BIGINT-typed field, a captured `-` converts to 0 when
the resolved column name is one of the byte-count columns and to null
otherwise; any other value converts via `stoll`, yielding null (never a
row-level error) when the conversion fails. -/
theorem claim_C8_bigint_dash_policy (field : FormatField) (value : String)
    (hty : field.ty = LogicalTypeId.bigint) :
    WriteRegularFieldValue field value =
      (if value = "-" then
        (if field.column_name ∈ bytes_columns then some (Value.int64 0) else none)
       else (cppStoll value).map Value.int64) := by
  unfold WriteRegularFieldValue
  rw [hty]
  simp

theorem claim_C8_bigint_dash_policy_witness :
    bytesField.ty = LogicalTypeId.bigint ∧
    contentLengthField.ty = LogicalTypeId.bigint ∧
    WriteRegularFieldValue bytesField "-" = some (Value.int64 0) ∧
    WriteRegularFieldValue contentLengthField "-" = none ∧
    WriteRegularFieldValue bytesField "12x34" = some (Value.int64 12) ∧
    WriteRegularFieldValue bytesField "abc" = none := by
  refine ⟨by decide, by decide, ?_, ?_, ?_, ?_⟩
  · rw [claim_C8_bigint_dash_policy bytesField "-" (by decide)]
    decide
  · rw [claim_C8_bigint_dash_policy contentLengthField "-" (by decide)]
    decide
  · rw [claim_C8_bigint_dash_policy bytesField "12x34" (by decide)]
    decide
  · rw [claim_C8_bigint_dash_policy bytesField "abc" (by decide)]
    decide

/-- C9: the static directive catalog violates collision-priority
uniqueness — `%r` and `%<r` are distinct entries with the same default
column name `request` and the same priority 1 (likewise `%>D`/`%>T`
share `duration` at priority 0), contradicting both the claim and the
code's own comment that all priorities within a class are unique. -/
theorem claim_C9_collision_priority_tie :
    (directive_definitions.get? 7).map
        (fun d => (d.directive, d.column_name, d.collision_priority)) =
      some ("%r", "request", 1) ∧
    (directive_definitions.get? 8).map
        (fun d => (d.directive, d.column_name, d.collision_priority)) =
      some ("%<r", "request", 1) ∧
    (directive_definitions.get? 19).map
        (fun d => (d.directive, d.column_name, d.collision_priority)) =
      some ("%>D", "duration", 0) ∧
    (directive_definitions.get? 22).map
        (fun d => (d.directive, d.column_name, d.collision_priority)) =
      some ("%>T", "duration", 0) := by
  refine ⟨?_, ?_, ?_, ?_⟩ <;> decide

/-- C10: `ParseLogLine` returns either the empty vector or exactly one
string per capture group of the compiled regex, never a partial vector;
and a format whose regex has zero capture groups (`x`, no directives)
reports every line as a parse error even when the regex matches the
line — the matcher succeeds on `x` yet the result is empty and the
row is dropped as a parse error outside raw mode. -/
theorem claim_C10_all_or_nothing_extraction :
    (∀ F line : List Char,
      ParseLogLine line (ParseFormatString F) = [] ∨
      (ParseLogLine line (ParseFormatString F)).length =
        numCaptureGroups (ParseFormatString F)) ∧
    numCaptureGroups (ParseFormatString "x".data) = 0 ∧
    (rdParsePattern (ParseFormatString "x".data).regex_pattern).map
        (fun items => matchItems items "x".data) = some (some []) ∧
    ParseLogLine "x".data (ParseFormatString "x".data) = [] ∧
    functionRowValues (ParseFormatString "x".data) false "x".data "f.log" = none := by
  refine ⟨fun F line => parseLogLine_empty_or_full _ _, ?_, ?_, ?_, ?_⟩
  · decide
  · decide
  · decide
  · decide

end HttpdLog

namespace HttpdLog

/-! ### Tokenizer step lemmas (used by the capture-alignment proof) -/

theorem tok_end (fmt : List Char) (tfuel tpos : Nat) (inq : Bool)
    (h : fmt.length ≤ tpos) : tokenizeAux fmt tfuel tpos inq = [] := by
  cases tfuel with
  | zero => rfl
  | succ n =>
    unfold tokenizeAux
    simp [Nat.not_lt.mpr h]

theorem tok_step_quote (fmt : List Char) (tfuel tpos : Nat) (inq : Bool)
    (hlt : tpos < fmt.length) (hc : fmt.getD tpos ' ' = '"') :
    tokenizeAux fmt (tfuel + 1) tpos inq = tokenizeAux fmt tfuel (tpos + 1) (!inq) := by
  rw [List.getD_eq_getElem?_getD] at hc
  simp only [List.getElem?_eq_getElem hlt, Option.getD_some] at hc
  conv_lhs => unfold tokenizeAux
  simp [hlt, hc]

theorem tok_step_other (fmt : List Char) (tfuel tpos : Nat) (inq : Bool)
    (hlt : tpos < fmt.length) (hq : fmt.getD tpos ' ' ≠ '"')
    (hc : fmt.getD tpos ' ' ≠ '%') :
    tokenizeAux fmt (tfuel + 1) tpos inq = tokenizeAux fmt tfuel (tpos + 1) inq := by
  rw [List.getD_eq_getElem?_getD] at hq hc
  simp only [List.getElem?_eq_getElem hlt, Option.getD_some] at hq hc
  conv_lhs => unfold tokenizeAux
  simp [hlt, hq, hc]

theorem tok_skip_ws (fmt : List Char) :
    ∀ (k tfuel tpos : Nat) (inq : Bool), fmt.length - tpos < tfuel →
      (∀ j, tpos ≤ j → j < tpos + k → fmt.getD j ' ' = ' ' ∨ fmt.getD j ' ' = '\t') →
      ∃ tfuel2, fmt.length - (tpos + k) < tfuel2 ∧
        tokenizeAux fmt tfuel tpos inq = tokenizeAux fmt tfuel2 (tpos + k) inq := by
  intro k
  induction k with
  | zero => intro tfuel tpos inq hb _; exact ⟨tfuel, hb, rfl⟩
  | succ k ih =>
    intro tfuel tpos inq hb hws
    by_cases hlt : tpos < fmt.length
    · have hf1 : 1 ≤ tfuel := by omega
      obtain ⟨tf, rfl⟩ : ∃ tf, tfuel = tf + 1 := ⟨tfuel - 1, by omega⟩
      have hwch := hws tpos (Nat.le_refl _) (by omega)
      have hq : fmt.getD tpos ' ' ≠ '"' := by
        rcases hwch with h | h <;> rw [h] <;> decide
      have hc : fmt.getD tpos ' ' ≠ '%' := by
        rcases hwch with h | h <;> rw [h] <;> decide
      rw [tok_step_other fmt tf tpos inq hlt hq hc]
      obtain ⟨tf2, hb2, he⟩ := ih tf (tpos + 1) inq (by omega)
        (fun j hj1 hj2 => hws j (by omega) (by omega))
      refine ⟨tf2, by omega, ?_⟩
      rw [he]
      congr 1
      omega
    · refine ⟨tfuel, by omega, ?_⟩
      rw [tok_end fmt tfuel tpos inq (by omega),
        tok_end fmt tfuel (tpos + (k + 1)) inq (by omega)]

end HttpdLog

namespace HttpdLog

theorem classifyTimestamp_directive (f : FormatField) :
    (classifyTimestamp f).directive = f.directive := by
  unfold classifyTimestamp
  split_ifs <;> rfl

theorem classifyTimestamp_modifier (f : FormatField) :
    (classifyTimestamp f).modifier = f.modifier := by
  unfold classifyTimestamp
  split_ifs <;> rfl

theorem mkField_directive (d m : List Char) (q : Bool) :
    (mkField d m q).directive = String.mk d := by
  unfold mkField
  rw [classifyTimestamp_directive]

theorem mkField_modifier (d m : List Char) (q : Bool) :
    (mkField d m q).modifier = String.mk m := by
  unfold mkField
  rw [classifyTimestamp_modifier]

/-- Head characterization of the tokenizer: if tokenization from `tpos`
produces a first field `f`, then the remaining fields are a tokenization
from some later position `tnext`, and `tnext` lies beyond the span the
regex generator will skip for `f` (its directive length when the modifier
is empty, else two past a `}` at or after `tpos`). -/
theorem tokHead (fmt : List Char) : ∀ (tfuel tpos : Nat) (inq : Bool)
    (f : FormatField) (rest : List FormatField),
    fmt.length - tpos < tfuel →
    tokenizeAux fmt tfuel tpos inq = f :: rest →
    ∃ tnext tfuel2 inq2,
      tpos < tnext ∧
      fmt.length - tnext < tfuel2 ∧
      rest = tokenizeAux fmt tfuel2 tnext inq2 ∧
      ((f.modifier = "" ∧ tpos + f.directive.length ≤ tnext) ∨
       (f.modifier ≠ "" ∧ ∃ close, tpos ≤ close ∧
         fmt.get? close = some '}' ∧ close + 2 ≤ tnext)) := by
  intro tfuel
  induction tfuel with
  | zero => intro tpos inq f rest hb h; omega
  | succ n ih =>
    intro tpos inq f rest hb h
    have unitStep : tokenizeAux fmt n (tpos + 1) inq = f :: rest →
        tpos < fmt.length →
        ∃ tnext tfuel2 inq2,
          tpos < tnext ∧
          fmt.length - tnext < tfuel2 ∧
          rest = tokenizeAux fmt tfuel2 tnext inq2 ∧
          ((f.modifier = "" ∧ tpos + f.directive.length ≤ tnext) ∨
           (f.modifier ≠ "" ∧ ∃ close, tpos ≤ close ∧
             fmt.get? close = some '}' ∧ close + 2 ≤ tnext)) := by
      intro h2 hlt2
      obtain ⟨tnext, tf2, inq2, ha, hbb, hr, hcase⟩ :=
        ih (tpos + 1) inq f rest (by omega) h2
      refine ⟨tnext, tf2, inq2, by omega, hbb, hr, ?_⟩
      rcases hcase with ⟨hm, hle⟩ | ⟨hm, close, hc1, hc2, hc3⟩
      · exact Or.inl ⟨hm, by omega⟩
      · exact Or.inr ⟨hm, close, by omega, hc2, hc3⟩
    simp only [tokenizeAux] at h
    by_cases hlt : tpos < fmt.length
    swap
    · rw [if_neg hlt] at h
      exact absurd h.symm (List.cons_ne_nil f rest)
    rw [if_pos hlt] at h
    by_cases h1 : fmt.getD tpos ' ' = '"'
    · rw [if_pos h1] at h
      obtain ⟨tnext, tf2, inq2, ha, hbb, hr, hcase⟩ :=
        ih (tpos + 1) (!inq) f rest (by omega) h
      refine ⟨tnext, tf2, inq2, by omega, hbb, hr, ?_⟩
      rcases hcase with ⟨hm, hle⟩ | ⟨hm, close, hc1, hc2, hc3⟩
      · exact Or.inl ⟨hm, by omega⟩
      · exact Or.inr ⟨hm, close, by omega, hc2, hc3⟩
    rw [if_neg h1] at h
    by_cases h2 : fmt.getD tpos ' ' = '%' ∧ tpos + 1 < fmt.length
    swap
    · rw [if_neg h2] at h
      exact unitStep h hlt
    rw [if_pos h2] at h
    have hds2 := directiveStart_ge fmt tpos
    by_cases h3 : directiveStart fmt tpos < fmt.length ∧
        fmt.getD (directiveStart fmt tpos) ' ' = '{'
    · rw [if_pos h3] at h
      rcases hfind : findCharFrom fmt '}' (directiveStart fmt tpos + 1) with _ | close_pos
      · rw [hfind] at h
        exact unitStep h hlt
      rw [hfind] at h
      simp only [] at h
      obtain ⟨hds, hcl, hget⟩ := findCharFrom_found hfind
      by_cases hc1 : close_pos + 1 < fmt.length
      swap
      · rw [if_neg hc1] at h
        exact unitStep h hlt
      rw [if_pos hc1] at h
      by_cases hc2 : fmt.getD (close_pos + 1) ' ' = '^' ∧ close_pos + 3 < fmt.length
      · rw [if_pos hc2] at h
        injection h with hf hrest
        subst hf
        refine ⟨close_pos + 4, n, inq, by omega, by omega, hrest.symm, ?_⟩
        by_cases hmod : subStr fmt (directiveStart fmt tpos + 1)
            (close_pos - directiveStart fmt tpos - 1) = ([] : List Char)
        · refine Or.inl ⟨by rw [mkField_modifier, hmod], ?_⟩
          rw [mkField_directive]
          have hlen : (String.mk ('%' :: subStr fmt (close_pos + 1) 3)).length ≤ 4 := by
            simp [String.length, subStr]
          omega
        · refine Or.inr ⟨?_, close_pos, by omega, hget, by omega⟩
          rw [mkField_modifier]
          intro he
          exact hmod (by simpa using congrArg String.data he)
      · rw [if_neg hc2] at h
        injection h with hf hrest
        subst hf
        refine ⟨close_pos + 2, n, inq, by omega, by omega, hrest.symm, ?_⟩
        by_cases hmod : subStr fmt (directiveStart fmt tpos + 1)
            (close_pos - directiveStart fmt tpos - 1) = ([] : List Char)
        · refine Or.inl ⟨by rw [mkField_modifier, hmod], ?_⟩
          rw [mkField_directive]
          have hlen : (String.mk ['%', fmt.getD (close_pos + 1) ' ']).length = 2 := by
            simp [String.length]
          omega
        · refine Or.inr ⟨?_, close_pos, by omega, hget, by omega⟩
          rw [mkField_modifier]
          intro he
          exact hmod (by simpa using congrArg String.data he)
    rw [if_neg h3] at h
    by_cases h4 : (if directiveStart fmt tpos = tpos + 1 then tpos else directiveStart fmt tpos) +
          1 < fmt.length ∧
        fmt.getD (if directiveStart fmt tpos = tpos + 1 then tpos
          else directiveStart fmt tpos) ' ' = '%' ∧
        (fmt.getD ((if directiveStart fmt tpos = tpos + 1 then tpos
            else directiveStart fmt tpos) + 1) ' ' = '>' ∨
         fmt.getD ((if directiveStart fmt tpos = tpos + 1 then tpos
            else directiveStart fmt tpos) + 1) ' ' = '<')
    · rw [if_pos h4] at h
      injection h with hf hrest
      subst hf
      have hDge : tpos ≤ (if directiveStart fmt tpos = tpos + 1 then tpos
          else directiveStart fmt tpos) := by
        split <;> omega
      refine ⟨(if directiveStart fmt tpos = tpos + 1 then tpos
          else directiveStart fmt tpos) + 3, n, inq, by omega, by omega, hrest.symm, ?_⟩
      refine Or.inl ⟨by rw [mkField_modifier], ?_⟩
      rw [mkField_directive]
      have hlen : (String.mk (subStr fmt (if directiveStart fmt tpos = tpos + 1 then tpos
          else directiveStart fmt tpos) 3)).length ≤ 3 := by
        simp [String.length, subStr]
      omega
    rw [if_neg h4] at h
    by_cases h5 : tpos + 1 < directiveStart fmt tpos
    · rw [if_pos h5] at h
      injection h with hf hrest
      subst hf
      refine ⟨directiveStart fmt tpos + 1, n, inq, by omega, by omega, hrest.symm, ?_⟩
      refine Or.inl ⟨by rw [mkField_modifier], ?_⟩
      rw [mkField_directive]
      have hlen : (String.mk ['%', fmt.getD (directiveStart fmt tpos) ' ']).length = 2 := by
        simp [String.length]
      omega
    · rw [if_neg h5] at h
      injection h with hf hrest
      subst hf
      refine ⟨tpos + 2, n, inq, by omega, by omega, hrest.symm, ?_⟩
      refine Or.inl ⟨by rw [mkField_modifier], ?_⟩
      rw [mkField_directive]
      have hlen : (String.mk (subStr fmt tpos 2)).length ≤ 2 := by
        simp [String.length, subStr]
      omega

end HttpdLog

namespace HttpdLog

/-! ### Capture counting of emitted tokens -/

/-- Captures contributed by one field's emitted token: a quoted field is
capturing iff not skipped (the `is_quoted` branch comes first), a
non-quoted `%t` is always capturing, anything else iff not skipped. -/
def capCount (f : FormatField) : Nat :=
  if f.is_quoted then (if f.should_skip then 0 else 1)
  else if f.directive = "%t" then 1
  else if f.should_skip then 0 else 1

def capSum (fields : List FormatField) : Nat :=
  (fields.map capCount).sum

theorem countCaptures_cons_other {c : Char} (h1 : c ≠ '\\') (h2 : c ≠ '(')
    (r : List Char) : countCaptures (c :: r) = countCaptures r := by
  rw [countCaptures.eq_def]
  split <;> simp_all

theorem countCaptures_paren {c : Char} (h : c ≠ '?') (r : List Char) :
    countCaptures ('(' :: c :: r) = 1 + countCaptures (c :: r) := by
  rw [countCaptures.eq_def]
  split <;> solve
    | simp_all
    | (rename_i a b heq
       injection heq with h1 h2
       exact absurd h1.symm b)

/-- Every `strfSpecRegex` result is one of finitely many fragments. -/
theorem strfSpecRegex_cases (s : String) :
    strfSpecRegex s = "\\d{4}".data ∨
      strfSpecRegex s = "\\d{2}".data ∨
      strfSpecRegex s = "\\d{1,2}".data ∨
      strfSpecRegex s = "[\\s\\d]\\d".data ∨
      strfSpecRegex s = "[A-Za-z]{3}".data ∨
      strfSpecRegex s = "[A-Za-z]+".data ∨
      strfSpecRegex s = "\\d{6}".data ∨
      strfSpecRegex s = "[+-]\\d{4}".data ∨
      strfSpecRegex s = "[A-Za-z/_]+".data ∨
      strfSpecRegex s = "\\d{2}:\\d{2}:\\d{2}".data ∨
      strfSpecRegex s = "\\d{2}:\\d{2}".data ∨
      strfSpecRegex s = "\\d{3}".data ∨
      strfSpecRegex s = "[AaPp][Mm]".data ∨
      strfSpecRegex s = "\\n".data ∨
      strfSpecRegex s = "\\t".data ∨
      strfSpecRegex s = "%".data ∨
      strfSpecRegex s = "\\S+".data := by
  unfold strfSpecRegex
  by_cases h1 : s = "%Y"
  · rw [if_pos h1]
    exact Or.inl rfl
  rw [if_neg h1]
  by_cases h2 : s = "%y"
  · rw [if_pos h2]
    exact Or.inr (Or.inl rfl)
  rw [if_neg h2]
  by_cases h3 : s = "%m"
  · rw [if_pos h3]
    exact Or.inr (Or.inl rfl)
  rw [if_neg h3]
  by_cases h4 : s = "%-m"
  · rw [if_pos h4]
    exact Or.inr (Or.inr (Or.inl rfl))
  rw [if_neg h4]
  by_cases h5 : s = "%d"
  · rw [if_pos h5]
    exact Or.inr (Or.inl rfl)
  rw [if_neg h5]
  by_cases h6 : s = "%-d"
  · rw [if_pos h6]
    exact Or.inr (Or.inr (Or.inl rfl))
  rw [if_neg h6]
  by_cases h7 : s = "%e"
  · rw [if_pos h7]
    exact Or.inr (Or.inr (Or.inr (Or.inl rfl)))
  rw [if_neg h7]
  by_cases h8 : s = "%b" ∨ s = "%h"
  · rw [if_pos h8]
    exact Or.inr (Or.inr (Or.inr (Or.inr (Or.inl rfl))))
  rw [if_neg h8]
  by_cases h9 : s = "%B"
  · rw [if_pos h9]
    exact Or.inr (Or.inr (Or.inr (Or.inr (Or.inr (Or.inl rfl)))))
  rw [if_neg h9]
  by_cases h10 : s = "%H"
  · rw [if_pos h10]
    exact Or.inr (Or.inl rfl)
  rw [if_neg h10]
  by_cases h11 : s = "%-H"
  · rw [if_pos h11]
    exact Or.inr (Or.inr (Or.inl rfl))
  rw [if_neg h11]
  by_cases h12 : s = "%I"
  · rw [if_pos h12]
    exact Or.inr (Or.inl rfl)
  rw [if_neg h12]
  by_cases h13 : s = "%-I"
  · rw [if_pos h13]
    exact Or.inr (Or.inr (Or.inl rfl))
  rw [if_neg h13]
  by_cases h14 : s = "%M"
  · rw [if_pos h14]
    exact Or.inr (Or.inl rfl)
  rw [if_neg h14]
  by_cases h15 : s = "%S"
  · rw [if_pos h15]
    exact Or.inr (Or.inl rfl)
  rw [if_neg h15]
  by_cases h16 : s = "%f"
  · rw [if_pos h16]
    exact Or.inr (Or.inr (Or.inr (Or.inr (Or.inr (Or.inr (Or.inl rfl))))))
  rw [if_neg h16]
  by_cases h17 : s = "%z"
  · rw [if_pos h17]
    exact Or.inr (Or.inr (Or.inr (Or.inr (Or.inr (Or.inr (Or.inr (Or.inl rfl)))))))
  rw [if_neg h17]
  by_cases h18 : s = "%Z"
  · rw [if_pos h18]
    exact Or.inr (Or.inr (Or.inr (Or.inr (Or.inr (Or.inr (Or.inr (Or.inr (Or.inl rfl))))))))
  rw [if_neg h18]
  by_cases h19 : s = "%T"
  · rw [if_pos h19]
    exact Or.inr (Or.inr (Or.inr (Or.inr (Or.inr (Or.inr (Or.inr (Or.inr (Or.inr (Or.inl rfl)))))))))
  rw [if_neg h19]
  by_cases h20 : s = "%R"
  · rw [if_pos h20]
    exact Or.inr (Or.inr (Or.inr (Or.inr (Or.inr (Or.inr (Or.inr (Or.inr (Or.inr (Or.inr (Or.inl rfl))))))))))
  rw [if_neg h20]
  by_cases h21 : s = "%j"
  · rw [if_pos h21]
    exact Or.inr (Or.inr (Or.inr (Or.inr (Or.inr (Or.inr (Or.inr (Or.inr (Or.inr (Or.inr (Or.inr (Or.inl rfl)))))))))))
  rw [if_neg h21]
  by_cases h22 : s = "%a"
  · rw [if_pos h22]
    exact Or.inr (Or.inr (Or.inr (Or.inr (Or.inl rfl))))
  rw [if_neg h22]
  by_cases h23 : s = "%A"
  · rw [if_pos h23]
    exact Or.inr (Or.inr (Or.inr (Or.inr (Or.inr (Or.inl rfl)))))
  rw [if_neg h23]
  by_cases h24 : s = "%p" ∨ s = "%P"
  · rw [if_pos h24]
    exact Or.inr (Or.inr (Or.inr (Or.inr (Or.inr (Or.inr (Or.inr (Or.inr (Or.inr (Or.inr (Or.inr (Or.inr (Or.inl rfl))))))))))))
  rw [if_neg h24]
  by_cases h25 : s = "%n"
  · rw [if_pos h25]
    exact Or.inr (Or.inr (Or.inr (Or.inr (Or.inr (Or.inr (Or.inr (Or.inr (Or.inr (Or.inr (Or.inr (Or.inr (Or.inr (Or.inl rfl)))))))))))))
  rw [if_neg h25]
  by_cases h26 : s = "%t"
  · rw [if_pos h26]
    exact Or.inr (Or.inr (Or.inr (Or.inr (Or.inr (Or.inr (Or.inr (Or.inr (Or.inr (Or.inr (Or.inr (Or.inr (Or.inr (Or.inr (Or.inl rfl))))))))))))))
  rw [if_neg h26]
  by_cases h27 : s = "%%"
  · rw [if_pos h27]
    exact Or.inr (Or.inr (Or.inr (Or.inr (Or.inr (Or.inr (Or.inr (Or.inr (Or.inr (Or.inr (Or.inr (Or.inr (Or.inr (Or.inr (Or.inr (Or.inl rfl)))))))))))))))
  rw [if_neg h27]
  exact Or.inr (Or.inr (Or.inr (Or.inr (Or.inr (Or.inr (Or.inr (Or.inr (Or.inr (Or.inr (Or.inr (Or.inr (Or.inr (Or.inr (Or.inr (Or.inr (rfl))))))))))))))))

/-- A `strfSpecRegex` fragment passes through the capture scanner. -/
theorem strfSpecRegex_count (s : String) (w : List Char) :
    countCaptures (strfSpecRegex s ++ w) = countCaptures w := by
  rcases strfSpecRegex_cases s with
    h | h | h | h | h | h | h | h | h | h | h | h | h | h | h | h | h <;>
    rw [h] <;> rfl

/-- A `strfSpecRegex` fragment directly after `(` opens one capture. -/
theorem strfSpecRegex_paren_count (s : String) (w : List Char) :
    countCaptures ('(' :: (strfSpecRegex s ++ w)) = 1 + countCaptures w := by
  rcases strfSpecRegex_cases s with
    h | h | h | h | h | h | h | h | h | h | h | h | h | h | h | h | h <;>
    rw [h] <;> rfl

theorem escStrfChar_count (c : Char) (w : List Char) :
    countCaptures (escStrfChar c ++ w) = countCaptures w := by
  unfold escStrfChar
  split_ifs with h
  · rfl
  · push_neg at h
    exact countCaptures_cons_other (by tauto) (by tauto) w

theorem escStrfChar_paren_count (c : Char) (w : List Char) :
    countCaptures ('(' :: (escStrfChar c ++ w)) = 1 + countCaptures w := by
  unfold escStrfChar
  split_ifs with h
  · rfl
  · push_neg at h
    rw [List.singleton_append, countCaptures_paren (by tauto),
      countCaptures_cons_other (by tauto) (by tauto)]

theorem strftimeToRegex_percent_other {c1 : Char} (h : c1 ≠ '-') (rest : List Char) :
    strftimeToRegex ('%' :: c1 :: rest) =
      strfSpecRegex (String.mk ['%', c1]) ++ strftimeToRegex rest := by
  rw [strftimeToRegex.eq_def]
  split <;> solve
    | simp_all
    | (rename_i a heq
       injection heq with hh ht
       exact absurd ht.symm (a c1 rest hh.symm))

theorem strftimeToRegex_other {c0 : Char} (h : c0 ≠ '%') (rest : List Char) :
    strftimeToRegex (c0 :: rest) = escStrfChar c0 ++ strftimeToRegex rest := by
  rw [strftimeToRegex.eq_def]
  split <;> try simp_all

theorem strfCountAux : ∀ (n : Nat) (sf : List Char), sf.length ≤ n →
    ∀ w, countCaptures (strftimeToRegex sf ++ w) = countCaptures w := by
  intro n
  induction n with
  | zero =>
    intro sf h w
    have hnil : sf = [] := List.eq_nil_of_length_eq_zero (Nat.le_zero.mp h)
    subst hnil; rfl
  | succ n ih =>
    intro sf hlen w
    rcases sf with _ | ⟨c0, sf1⟩
    · rfl
    by_cases hc0 : c0 = '%'
    · subst hc0
      rcases sf1 with _ | ⟨c1, sf2⟩
      · rfl
      by_cases hc1 : c1 = '-'
      · subst hc1
        rcases sf2 with _ | ⟨c2, sf3⟩
        · rfl
        · show countCaptures ((strfSpecRegex (String.mk ['%', '-', c2]) ++
              strftimeToRegex sf3) ++ w) = countCaptures w
          rw [List.append_assoc, strfSpecRegex_count]
          exact ih sf3 (by simp at hlen ⊢; omega) w
      · rw [strftimeToRegex_percent_other hc1, List.append_assoc, strfSpecRegex_count]
        exact ih sf2 (by simp at hlen ⊢; omega) w
    · rw [strftimeToRegex_other hc0, List.append_assoc, escStrfChar_count]
      exact ih sf1 (by simp at hlen ⊢; omega) w

/-- The strftime-compiled regex passes through the capture scanner. -/
theorem strftimeToRegex_count (sf w : List Char) :
    countCaptures (strftimeToRegex sf ++ w) = countCaptures w :=
  strfCountAux sf.length sf le_rfl w

/-- A parenthesised strftime-compiled regex contributes exactly one capture. -/
theorem strftimeToRegex_paren_count (sf w : List Char) :
    countCaptures ('(' :: (strftimeToRegex sf ++ (')' :: w))) = 1 + countCaptures w := by
  rcases sf with _ | ⟨c0, sf1⟩
  · rfl
  by_cases hc0 : c0 = '%'
  · subst hc0
    rcases sf1 with _ | ⟨c1, sf2⟩
    · rfl
    by_cases hc1 : c1 = '-'
    · subst hc1
      rcases sf2 with _ | ⟨c2, sf3⟩
      · rfl
      · show countCaptures ('(' :: ((strfSpecRegex (String.mk ['%', '-', c2]) ++
            strftimeToRegex sf3) ++ (')' :: w))) = 1 + countCaptures w
        rw [List.append_assoc, strfSpecRegex_paren_count, strftimeToRegex_count]
        rfl
    · rw [strftimeToRegex_percent_other hc1, List.append_assoc,
        strfSpecRegex_paren_count, strftimeToRegex_count]
      rfl
  · rw [strftimeToRegex_other hc0, List.append_assoc,
      escStrfChar_paren_count, strftimeToRegex_count]
    rfl

/-- One emitted field token contributes exactly `capCount` captures. -/
theorem fieldToken_count (f : FormatField) (w : List Char) :
    countCaptures (fieldToken f ++ w) = capCount f + countCaptures w := by
  unfold fieldToken capCount
  by_cases hq : f.is_quoted = true
  · by_cases hs : f.should_skip = true
    · simp [hq, hs]
      rfl
    · simp only [Bool.not_eq_true] at hs
      simp [hq, hs]
      rfl
  · simp only [Bool.not_eq_true] at hq
    by_cases ht : f.directive = "%t"
    · rcases htt : f.timestamp_type <;> simp [hq, ht, htt] <;>
        first
          | rfl
          | rw [strftimeToRegex_paren_count]
    · by_cases hs : f.should_skip = true
      · simp [hq, hs, ht]
        rfl
      · simp only [Bool.not_eq_true] at hs
        simp [hq, hs, ht]
        rfl

end HttpdLog

namespace HttpdLog

/-! ### Collision resolution preserves directives and modifiers -/

/-- The projection of a field the regex generator's control flow and token
spans depend on through the tokenizer: its directive and modifier. -/
def core (f : FormatField) : String × String := (f.directive, f.modifier)

theorem mapIdx_core (g : Nat → FormatField → FormatField)
    (h : ∀ i f, core (g i f) = core f) (l : List FormatField) :
    (l.mapIdx g).map core = l.map core := by
  rw [List.mapIdx_eq_enum_map, List.map_map]
  have he : ∀ ia ∈ l.enum, (core ∘ Function.uncurry g) ia =
      (core ∘ Prod.snd) ia := by
    intro ia _
    exact h ia.1 ia.2
  rw [List.map_congr_left he, ← List.map_map, List.enum_map_snd]

theorem map_core_of_pointwise (g : FormatField → FormatField)
    (h : ∀ f, core (g f) = core f) (l : List FormatField) :
    (l.map g).map core = l.map core := by
  rw [List.map_map]
  exact List.map_congr_left (fun f _ => h f)

theorem resolveRequestSkips_core (l : List FormatField) :
    (resolveRequestSkips l).map core = l.map core := by
  unfold resolveRequestSkips
  split
  · rfl
  · apply mapIdx_core
    intro i f
    split <;> rfl

theorem groupStep_core (st : GroupScanState) (f : FormatField) :
    ∃ f', (groupStep st f).rev_fields = f' :: st.rev_fields ∧ core f' = core f ∧
      (groupStep st f).idx = st.idx + 1 := by
  unfold groupStep
  dsimp only
  split_ifs <;> exact ⟨_, rfl, rfl, rfl⟩

theorem groupFold_core (l : List FormatField) : ∀ (st : GroupScanState),
    (l.foldl groupStep st).rev_fields.map core =
      (l.map core).reverse ++ st.rev_fields.map core := by
  induction l with
  | nil => intro st; simp
  | cons f t ih =>
    intro st
    rw [List.foldl_cons]
    obtain ⟨f', hrv, hc, _⟩ := groupStep_core st f
    rw [ih (groupStep st f), hrv]
    simp [hc]

theorem groupTimestamps_core (l : List FormatField) :
    (groupTimestamps l).1.map core = l.map core := by
  unfold groupTimestamps
  dsimp only
  rw [List.map_reverse, groupFold_core]
  simp

theorem renameBeginEnd_core (l : List FormatField) :
    (renameBeginEnd l).map core = l.map core := by
  unfold renameBeginEnd
  dsimp only
  split
  · apply map_core_of_pointwise
    intro f
    split <;> rfl
  · rfl

theorem applyNames_core (l : List FormatField) (a : List (Nat × String)) :
    (applyNames l a).map core = l.map core := by
  apply mapIdx_core
  intro i f
  split <;> rfl

theorem applySkips_core (l : List FormatField) (s : List Nat) :
    (applySkips l s).map core = l.map core := by
  apply mapIdx_core
  intro i f
  split <;> rfl

theorem applyBucket_core (l : List FormatField) (n : String) (idxs : List Nat) :
    (applyBucket l n idxs).map core = l.map core := by
  unfold applyBucket
  dsimp only
  split_ifs <;>
    first
      | rfl
      | apply applySkips_core
      | apply applyNames_core

theorem bucketFold_core (bs : List (String × List Nat)) :
    ∀ (l : List FormatField),
      (bs.foldl (fun fs nb => applyBucket fs nb.1 nb.2) l).map core = l.map core := by
  induction bs with
  | nil => intro l; rfl
  | cons b t ih =>
    intro l
    rw [List.foldl_cons, ih, applyBucket_core]

theorem resolve_core (l : List FormatField) :
    (ResolveColumnNameCollisions l).1.map core = l.map core := by
  unfold ResolveColumnNameCollisions
  rw [bucketFold_core, renameBeginEnd_core, groupTimestamps_core, resolveRequestSkips_core]

end HttpdLog

namespace HttpdLog

/-! ### Step lemmas for the regex generator loop -/

theorem gen_end (fmt : List Char) (gfuel gpos : Nat) (fields : List FormatField)
    (h : fmt.length ≤ gpos) : genTokens fmt gfuel gpos fields = [] := by
  cases gfuel with
  | zero => rfl
  | succ g =>
    unfold genTokens
    simp [Nat.not_lt.mpr h]

theorem gen_step_quote (fmt : List Char) (g gpos : Nat) (fields : List FormatField)
    (hlt : gpos < fmt.length) (hc : fmt.getD gpos ' ' = '"') :
    genTokens fmt (g + 1) gpos fields = ['"'] :: genTokens fmt g (gpos + 1) fields := by
  rw [List.getD_eq_getElem?_getD] at hc
  simp only [List.getElem?_eq_getElem hlt, Option.getD_some] at hc
  conv_lhs => unfold genTokens
  simp [hlt, hc]

theorem gen_step_field_nomod (fmt : List Char) (g gpos : Nat)
    (fields : List FormatField) (hlt : gpos < fmt.length)
    (hc : fmt.getD gpos ' ' = '%') (hne : fields ≠ [])
    (hm : (fields.headD default).modifier = "") :
    genTokens fmt (g + 1) gpos fields =
      fieldToken (fields.headD default) ::
        genTokens fmt g (gpos + (fields.headD default).directive.length) fields.tail := by
  rw [List.getD_eq_getElem?_getD] at hc
  simp only [List.getElem?_eq_getElem hlt, Option.getD_some] at hc
  conv_lhs => unfold genTokens
  simp [hlt, hc, hne, hm]
  rw [List.headD_eq_head?_getD] at hm
  rw [if_pos hm]

theorem gen_step_field_mod (fmt : List Char) (g gpos cp : Nat)
    (fields : List FormatField) (hlt : gpos < fmt.length)
    (hc : fmt.getD gpos ' ' = '%') (hne : fields ≠ [])
    (hm : (fields.headD default).modifier ≠ "")
    (hfind : findCharFrom fmt '}' gpos = some cp) :
    genTokens fmt (g + 1) gpos fields =
      fieldToken (fields.headD default) ::
        genTokens fmt g (cp + 2) fields.tail := by
  rw [List.getD_eq_getElem?_getD] at hc
  simp only [List.getElem?_eq_getElem hlt, Option.getD_some] at hc
  conv_lhs => unfold genTokens
  simp [hlt, hc, hne, hm, hfind]
  rw [List.headD_eq_head?_getD] at hm
  rw [if_neg hm]

theorem gen_step_ws (fmt : List Char) (g gpos : Nat) (fields : List FormatField)
    (hlt : gpos < fmt.length)
    (hws : fmt.getD gpos ' ' = ' ' ∨ fmt.getD gpos ' ' = '\t') :
    genTokens fmt (g + 1) gpos fields =
      "\\s+".data ::
        genTokens fmt g (skipWsFrom fmt fmt.length (gpos + 1)) fields := by
  rw [List.getD_eq_getElem?_getD] at hws
  simp only [List.getElem?_eq_getElem hlt, Option.getD_some] at hws
  conv_lhs => unfold genTokens
  rcases hws with h | h <;> simp [hlt, h]

theorem gen_step_lbracket (fmt : List Char) (g gpos : Nat) (fields : List FormatField)
    (hlt : gpos < fmt.length) (hc : fmt.getD gpos ' ' = '[') :
    genTokens fmt (g + 1) gpos fields =
      "\\[".data :: genTokens fmt g (gpos + 1) fields := by
  rw [List.getD_eq_getElem?_getD] at hc
  simp only [List.getElem?_eq_getElem hlt, Option.getD_some] at hc
  conv_lhs => unfold genTokens
  simp [hlt, hc]

theorem gen_step_rbracket (fmt : List Char) (g gpos : Nat) (fields : List FormatField)
    (hlt : gpos < fmt.length) (hc : fmt.getD gpos ' ' = ']') :
    genTokens fmt (g + 1) gpos fields =
      "\\]".data :: genTokens fmt g (gpos + 1) fields := by
  rw [List.getD_eq_getElem?_getD] at hc
  simp only [List.getElem?_eq_getElem hlt, Option.getD_some] at hc
  conv_lhs => unfold genTokens
  simp [hlt, hc]

theorem gen_step_other (fmt : List Char) (g gpos : Nat) (fields : List FormatField)
    (hlt : gpos < fmt.length) (hq : fmt.getD gpos ' ' ≠ '"')
    (hp : ¬(fmt.getD gpos ' ' = '%' ∧ fields ≠ []))
    (hws : ¬(fmt.getD gpos ' ' = ' ' ∨ fmt.getD gpos ' ' = '\t'))
    (hl : fmt.getD gpos ' ' ≠ '[') (hr : fmt.getD gpos ' ' ≠ ']') :
    genTokens fmt (g + 1) gpos fields =
      escFmtChar (fmt.getD gpos ' ') :: genTokens fmt g (gpos + 1) fields := by
  rw [List.getD_eq_getElem?_getD] at hq hp hws hl hr ⊢
  simp only [List.getElem?_eq_getElem hlt, Option.getD_some] at hq hp hws hl hr ⊢
  conv_lhs => unfold genTokens
  push_neg at hws
  simp [hlt, hq, hp, hws.1, hws.2, hl, hr]

/-- Every position skipped by `skipWsFrom` holds a space or a tab. -/
theorem skipWsFrom_spec (fmt : List Char) : ∀ (fuel i j : Nat), i ≤ j →
    j < skipWsFrom fmt fuel i →
    fmt.getD j ' ' = ' ' ∨ fmt.getD j ' ' = '\t' := by
  intro fuel
  induction fuel with
  | zero =>
    intro i j hij hj
    simp only [skipWsFrom] at hj
    omega
  | succ fuel ih =>
    intro i j hij hj
    unfold skipWsFrom at hj
    rcases hg : fmt.get? i with _ | c
    · simp only [hg] at hj; omega
    · simp only [hg] at hj
      by_cases hc : c = ' ' ∨ c = '\t'
      · rw [if_pos hc] at hj
        rcases Nat.eq_or_lt_of_le hij with heq | hlt
        · subst heq
          rw [List.getD_eq_getElem?_getD, ← List.get?_eq_getElem?, hg]
          exact hc
        · exact ih (i + 1) j hlt hj
      · rw [if_neg hc] at hj
        omega

theorem escFmtChar_count (c : Char) (w : List Char) :
    countCaptures (escFmtChar c ++ w) = countCaptures w := by
  unfold escFmtChar
  split_ifs with h
  · rfl
  · push_neg at h
    exact countCaptures_cons_other (by tauto) (by tauto) w

theorem countCaptures_ws_tok (w : List Char) :
    countCaptures ("\\s+".data ++ w) = countCaptures w := rfl

theorem countCaptures_lb_tok (w : List Char) :
    countCaptures ("\\[".data ++ w) = countCaptures w := rfl

theorem countCaptures_rb_tok (w : List Char) :
    countCaptures ("\\]".data ++ w) = countCaptures w := rfl

theorem countCaptures_quote_tok (w : List Char) :
    countCaptures ('"' :: w) = countCaptures w := rfl

/-- With no fields left, the generator emits only non-capturing text. -/
theorem genTokens_empty_count (fmt : List Char) : ∀ (gfuel gpos : Nat),
    countCaptures (genTokens fmt gfuel gpos []).flatten = 0 := by
  intro gfuel
  induction gfuel with
  | zero => intro gpos; rfl
  | succ g ih =>
    intro gpos
    by_cases hlt : gpos < fmt.length
    · by_cases h1 : fmt.getD gpos ' ' = '"'
      · rw [gen_step_quote fmt g gpos [] hlt h1, List.flatten_cons,
          List.singleton_append, countCaptures_quote_tok, ih]
      by_cases h2 : fmt.getD gpos ' ' = ' ' ∨ fmt.getD gpos ' ' = '\t'
      · rw [gen_step_ws fmt g gpos [] hlt h2, List.flatten_cons,
          countCaptures_ws_tok, ih]
      by_cases h3 : fmt.getD gpos ' ' = '['
      · rw [gen_step_lbracket fmt g gpos [] hlt h3, List.flatten_cons,
          countCaptures_lb_tok, ih]
      by_cases h4 : fmt.getD gpos ' ' = ']'
      · rw [gen_step_rbracket fmt g gpos [] hlt h4, List.flatten_cons,
          countCaptures_rb_tok, ih]
      rw [gen_step_other fmt g gpos [] hlt h1 (by simp) h2 h3 h4,
        List.flatten_cons, escFmtChar_count, ih]
    · rw [gen_end fmt (g + 1) gpos [] (by omega)]
      rfl

end HttpdLog

namespace HttpdLog

/-- Capture count of the generator loop's output: the generator walks the
format string in lockstep (lagging by skipped spans) with the tokenizer
that produced its field list, so each `%` it meets consumes exactly the
head field, contributing `capCount` captures; all other emitted text is
non-capturing. -/
theorem genTokens_count (fmt : List Char) : ∀ (gfuel gpos : Nat)
    (fields : List FormatField) (tfuel tpos : Nat) (inq : Bool),
    fields.map core = (tokenizeAux fmt tfuel tpos inq).map core →
    fmt.length - tpos < tfuel →
    gpos ≤ tpos →
    fmt.length - gpos + fields.length < gfuel →
    countCaptures (genTokens fmt gfuel gpos fields).flatten = capSum fields := by
  intro gfuel
  induction gfuel with
  | zero =>
    intro gpos fields tfuel tpos inq _ _ _ hgb
    omega
  | succ g ih =>
    intro gpos fields tfuel tpos inq hrel htb hle hgb
    by_cases hlt : gpos < fmt.length
    case neg =>
      rw [gen_end fmt (g + 1) gpos fields (by omega)]
      rw [tok_end fmt tfuel tpos inq (by omega)] at hrel
      rcases fields with _ | ⟨f, fs⟩
      · rfl
      · simp at hrel
    case pos =>
    rcases fields with _ | ⟨f, fs⟩
    · rw [genTokens_empty_count fmt (g + 1) gpos]
      rfl
    simp only [List.length_cons] at hgb
    by_cases h1 : fmt.getD gpos ' ' = '"'
    · rw [gen_step_quote fmt g gpos (f :: fs) hlt h1, List.flatten_cons,
        List.singleton_append, countCaptures_quote_tok]
      by_cases heq : tpos = gpos
      · subst heq
        obtain ⟨tf, rfl⟩ : ∃ tf, tfuel = tf + 1 := ⟨tfuel - 1, by omega⟩
        rw [tok_step_quote fmt tf tpos inq hlt h1] at hrel
        exact ih (tpos + 1) (f :: fs) tf (tpos + 1) (!inq) hrel (by omega) le_rfl
          (by simp only [List.length_cons]; omega)
      · exact ih (gpos + 1) (f :: fs) tfuel tpos inq hrel htb (by omega)
          (by simp only [List.length_cons]; omega)
    by_cases h2 : fmt.getD gpos ' ' = ' ' ∨ fmt.getD gpos ' ' = '\t'
    · rw [gen_step_ws fmt g gpos (f :: fs) hlt h2, List.flatten_cons, countCaptures_ws_tok]
      have hge : gpos + 1 ≤ skipWsFrom fmt fmt.length (gpos + 1) :=
        skipWsFrom_ge fmt fmt.length (gpos + 1)
      by_cases hcmp : skipWsFrom fmt fmt.length (gpos + 1) ≤ tpos
      · exact ih (skipWsFrom fmt fmt.length (gpos + 1)) (f :: fs) tfuel tpos inq hrel htb
          hcmp (by simp only [List.length_cons]; omega)
      · push_neg at hcmp
        have hwsall : ∀ j, tpos ≤ j →
            j < tpos + (skipWsFrom fmt fmt.length (gpos + 1) - tpos) →
            fmt.getD j ' ' = ' ' ∨ fmt.getD j ' ' = '\t' := by
          intro j hj1 hj2
          rcases Nat.lt_or_ge j (gpos + 1) with hj | hj
          · have hje : j = gpos := by omega
            subst hje
            exact h2
          · exact skipWsFrom_spec fmt fmt.length (gpos + 1) j hj (by omega)
        obtain ⟨tfuel2, htb2, hadv⟩ :=
          tok_skip_ws fmt (skipWsFrom fmt fmt.length (gpos + 1) - tpos) tfuel tpos inq
            htb hwsall
        rw [hadv] at hrel
        have hpe : tpos + (skipWsFrom fmt fmt.length (gpos + 1) - tpos) =
            skipWsFrom fmt fmt.length (gpos + 1) := by omega
        rw [hpe] at hrel htb2
        exact ih (skipWsFrom fmt fmt.length (gpos + 1)) (f :: fs) tfuel2
          (skipWsFrom fmt fmt.length (gpos + 1)) inq hrel htb2 le_rfl
          (by simp only [List.length_cons]; omega)
    by_cases h3 : fmt.getD gpos ' ' = '%'
    · have hne : (f :: fs) ≠ [] := by simp
      rcases htok : tokenizeAux fmt tfuel tpos inq with _ | ⟨f2, rest2⟩
      · rw [htok] at hrel
        simp at hrel
      rw [htok] at hrel
      simp only [List.map_cons, List.cons.injEq] at hrel
      obtain ⟨hcore, hrest⟩ := hrel
      have hdir : f.directive = f2.directive := congrArg Prod.fst hcore
      have hmod : f.modifier = f2.modifier := congrArg Prod.snd hcore
      obtain ⟨tnext, tfuel2, inq2, htlt, htb2, hrest2, hbnd⟩ :=
        tokHead fmt tfuel tpos inq f2 rest2 htb htok
      rw [hrest2] at hrest
      by_cases hm : f.modifier = ""
      · have hlenb : tpos + f2.directive.length ≤ tnext := by
          rcases hbnd with ⟨_, hb⟩ | ⟨hne2, _⟩
          · exact hb
          · exact absurd (hmod ▸ hm) hne2
        rw [gen_step_field_nomod fmt g gpos (f :: fs) hlt h3 hne hm]
        simp only [List.headD_cons, List.tail_cons]
        rw [List.flatten_cons, fieldToken_count]
        rw [ih (gpos + f.directive.length) fs tfuel2 tnext inq2 hrest htb2
          (by rw [hdir]; omega) (by omega)]
        simp [capSum]
      · rcases hbnd with ⟨hmem, _⟩ | ⟨_, close, hcl, hclch, hcle⟩
        · exact absurd (hmod.trans hmem) hm
        · obtain ⟨cp, hfind, hcple⟩ :=
            findCharFrom_exists_le (show gpos ≤ close by omega) hclch
          have hcpge : gpos ≤ cp := findCharFrom_ge hfind
          rw [gen_step_field_mod fmt g gpos cp (f :: fs) hlt h3 hne hm hfind]
          simp only [List.headD_cons, List.tail_cons]
          rw [List.flatten_cons, fieldToken_count]
          rw [ih (cp + 2) fs tfuel2 tnext inq2 hrest htb2 (by omega) (by omega)]
          simp [capSum]
    by_cases h4 : fmt.getD gpos ' ' = '['
    · rw [gen_step_lbracket fmt g gpos (f :: fs) hlt h4, List.flatten_cons,
        countCaptures_lb_tok]
      by_cases heq : tpos = gpos
      · subst heq
        obtain ⟨tf, rfl⟩ : ∃ tf, tfuel = tf + 1 := ⟨tfuel - 1, by omega⟩
        rw [tok_step_other fmt tf tpos inq hlt (by rw [h4]; decide) (by rw [h4]; decide)]
          at hrel
        exact ih (tpos + 1) (f :: fs) tf (tpos + 1) inq hrel (by omega) le_rfl
          (by simp only [List.length_cons]; omega)
      · exact ih (gpos + 1) (f :: fs) tfuel tpos inq hrel htb (by omega)
          (by simp only [List.length_cons]; omega)
    by_cases h5 : fmt.getD gpos ' ' = ']'
    · rw [gen_step_rbracket fmt g gpos (f :: fs) hlt h5, List.flatten_cons,
        countCaptures_rb_tok]
      by_cases heq : tpos = gpos
      · subst heq
        obtain ⟨tf, rfl⟩ : ∃ tf, tfuel = tf + 1 := ⟨tfuel - 1, by omega⟩
        rw [tok_step_other fmt tf tpos inq hlt (by rw [h5]; decide) (by rw [h5]; decide)]
          at hrel
        exact ih (tpos + 1) (f :: fs) tf (tpos + 1) inq hrel (by omega) le_rfl
          (by simp only [List.length_cons]; omega)
      · exact ih (gpos + 1) (f :: fs) tfuel tpos inq hrel htb (by omega)
          (by simp only [List.length_cons]; omega)
    · rw [gen_step_other fmt g gpos (f :: fs) hlt h1 (by tauto) h2 h4 h5,
        List.flatten_cons, escFmtChar_count]
      by_cases heq : tpos = gpos
      · subst heq
        obtain ⟨tf, rfl⟩ : ∃ tf, tfuel = tf + 1 := ⟨tfuel - 1, by omega⟩
        rw [tok_step_other fmt tf tpos inq hlt h1 h3] at hrel
        exact ih (tpos + 1) (f :: fs) tf (tpos + 1) inq hrel (by omega) le_rfl
          (by simp only [List.length_cons]; omega)
      · exact ih (gpos + 1) (f :: fs) tfuel tpos inq hrel htb (by omega)
          (by simp only [List.length_cons]; omega)

end HttpdLog

namespace HttpdLog

theorem capSum_eq : ∀ l : List FormatField,
    capSum l = (l.filter (fun f => !f.should_skip)).length +
      (l.filter (fun f => f.should_skip && f.directive == "%t" && !f.is_quoted)).length := by
  intro l
  induction l with
  | nil => rfl
  | cons f t ih =>
    simp only [capSum, List.map_cons, List.sum_cons, List.filter_cons] at ih ⊢
    by_cases hq : f.is_quoted = true <;> by_cases hs : f.should_skip = true <;>
      by_cases ht : f.directive = "%t" <;>
      simp [capCount, hq, hs, ht, ih] <;> omega

theorem countCaptures_caret (w : List Char) :
    countCaptures ('^' :: w) = countCaptures w := rfl

/-- C2 (amended): the number of capture groups in the regex text emitted by
`ParseFormatString` equals the number of non-skipped fields plus the number
of skipped `%t` fields that are not quoted.  (A quoted skipped `%t` takes
the `is_quoted` branch of `GenerateRegexPattern` first and is emitted as a
non-capturing group, so such fields do not contribute a capture group.) -/
theorem claim_C2_capture_alignment_amended (F : List Char) :
    countCaptures (ParseFormatString F).regex_pattern =
      emittedCaptureCount (ParseFormatString F) := by
  have hfields : (ParseFormatString F).fields =
      (ResolveColumnNameCollisions (tokenize F)).1 := rfl
  have hpat : (ParseFormatString F).regex_pattern =
      '^' :: (genTokens F
        (F.length + (ResolveColumnNameCollisions (tokenize F)).1.length + 1) 0
        (ResolveColumnNameCollisions (tokenize F)).1).flatten := rfl
  rw [hpat, countCaptures_caret]
  rw [genTokens_count F
    (F.length + (ResolveColumnNameCollisions (tokenize F)).1.length + 1) 0
    (ResolveColumnNameCollisions (tokenize F)).1 (F.length + 1) 0 false
    (resolve_core (tokenize F)) (by omega) (Nat.le_refl 0) (by omega)]
  unfold emittedCaptureCount
  rw [hfields]
  exact capSum_eq _

end HttpdLog
